import Mathlib

/-! storage-framework: provider-side account and server controller

A shallow embedding of `src/provider/internal/AccountData.cpp` and
`src/provider/internal/ServerImpl.cpp`, of the client classes `AccountImpl`,
`UploaderImpl`, `RootImpl`, `RuntimeImpl`, and of the test backend
`TestProvider`, followed by the properties proved about them.

Conventions of the embedding:

* every C++ member keeps its name (`auth_watcher_`, `credentials_valid_`, ...);
* objects owned by external libraries (the online-accounts `Account`, the
  D-Bus connection) are represented by the calls the code makes on them,
  recorded in order;
* a slot is a function from the state before the call to the state after it,
  the data delivered with the signal being an argument.
-/

namespace OnlineAccounts

/-- The authentication methods `AccountData::on_authenticated` switches on;
every value of the enumeration without a `case` of its own is `Other`. -/
inductive AuthenticationMethod where
  | OAuth1
  | OAuth2
  | Password
  | Other (tag : Nat)
  deriving DecidableEq, Repr

/-- The part of an `OnlineAccounts::Account` the provider reads:
`id()`, `serviceId()`, `authenticationMethod()` and `setting("host")`. -/
structure Account where
  id : Nat
  serviceId : String
  authenticationMethod : AuthenticationMethod
  host : String
  deriving DecidableEq, Repr

/-- The answer carried by a finished `PendingCall`, as seen through
`OAuth1Reply`, `OAuth2Reply` and `PasswordReply`: `hasError()`, the typed
accessors, and the two raw entries `data()["UserName"]`, `data()["Secret"]`. -/
structure PendingCallReply where
  hasError : Bool
  consumerKey : String
  consumerSecret : String
  token : String
  tokenSecret : String
  accessToken : String
  username : String
  password : String
  dataUserName : String
  dataSecret : String
  deriving DecidableEq, Repr

end OnlineAccounts

namespace unity.storage.provider

open OnlineAccounts

/-- The variant `Credentials`; `blank` is `boost::blank`, the value the spec
calls `None`. -/
inductive Credentials where
  | blank
  | OAuth1Credentials (consumer_key consumer_secret token token_secret : String)
  | OAuth2Credentials (access_token : String)
  | PasswordCredentials (username password host : String)
  deriving DecidableEq, Repr

namespace internal

/-- State of an `AccountData`.  `account_calls` is the list of
`account_->authenticate(auth_data)` calls made so far, each recorded by the
`interactive` flag it was issued with; a call is named by its position in that
list.  `auth_watcher_` holds the call the current `PendingCallWatcher` was
built from (`none` is the empty `unique_ptr`).  `authenticated_emitted` counts
`Q_EMIT authenticated()`. -/
structure AccountData where
  account_ : Account
  account_calls : List Bool
  auth_watcher_ : Option Nat
  authenticating_interactively_ : Bool
  credentials_valid_ : Bool
  credentials_ : Credentials
  authenticated_emitted : Nat
  deriving DecidableEq, Repr

namespace AccountData

/-- Source: `AccountData::authenticate(bool interactive)`.  Resetting
`auth_watcher_` destroys the previous watcher, so only the new call stays
connected to `on_authenticated`. -/
def authenticate (s : AccountData) (interactive : Bool) : AccountData :=
  if s.auth_watcher_.isSome && (s.authenticating_interactively_ || !interactive) then
    s
  else
    { s with
      authenticating_interactively_ := interactive
      credentials_valid_ := false
      credentials_ := Credentials.blank
      account_calls := s.account_calls ++ [interactive]
      auth_watcher_ := some s.account_calls.length }

/-- Source: `AccountData::AccountData`.  The members start as the empty
watcher, blank credentials and no call made; the two flags have no
initialiser in the constructor, so their initial values `interactive0` and
`valid0` are left open.  The body is `authenticate(false)`. -/
def construct (account : Account) (interactive0 valid0 : Bool) : AccountData :=
  authenticate
    { account_ := account
      account_calls := []
      auth_watcher_ := none
      authenticating_interactively_ := interactive0
      credentials_valid_ := valid0
      credentials_ := Credentials.blank
      authenticated_emitted := 0 }
    false

/-- Source: `AccountData::has_credentials`. -/
def has_credentials (s : AccountData) : Bool :=
  s.credentials_valid_

/-- Source: `AccountData::credentials`. -/
def credentials (s : AccountData) : Credentials :=
  s.credentials_

/-- Source: `AccountData::on_authenticated`, the slot connected to the
watcher's `finished` signal; `reply` is what the typed reply objects read
from `*auth_watcher_`. -/
def on_authenticated (s : AccountData) (reply : PendingCallReply) : AccountData :=
  let s1 := { s with credentials_ := Credentials.blank, credentials_valid_ := true }
  let s2 :=
    match s1.account_.authenticationMethod with
    | AuthenticationMethod.OAuth1 =>
      if reply.hasError then s1
      else
        { s1 with
          credentials_ := Credentials.OAuth1Credentials reply.consumerKey
            reply.consumerSecret reply.token reply.tokenSecret }
    | AuthenticationMethod.OAuth2 =>
      if reply.hasError then s1
      else { s1 with credentials_ := Credentials.OAuth2Credentials reply.accessToken }
    | AuthenticationMethod.Password =>
      let host := s1.account_.host
      if reply.hasError then s1
      else
        let username := reply.username
        let password := reply.password
        if username.isEmpty && password.isEmpty then
          { s1 with
            credentials_ := Credentials.PasswordCredentials reply.dataUserName
              reply.dataSecret host }
        else
          { s1 with credentials_ := Credentials.PasswordCredentials username password host }
    | AuthenticationMethod.Other _ => s1
  { s2 with
    auth_watcher_ := none
    authenticated_emitted := s2.authenticated_emitted + 1 }

/-- What can happen to an `AccountData` after construction: a caller invokes
`authenticate(interactive)`, or the accounts service finishes call number
`call` with `reply`. -/
inductive Event where
  | authenticate (interactive : Bool)
  | finished (call : Nat) (reply : PendingCallReply)
  deriving DecidableEq, Repr

/-- Delivery of one event.  The `finished` signal of a call reaches
`on_authenticated` only through the live watcher: a call whose watcher has
been destroyed (superseded, or already handled) is delivered to nobody. -/
def step (s : AccountData) : Event → AccountData
  | Event.authenticate interactive => s.authenticate interactive
  | Event.finished call reply =>
    if s.auth_watcher_ = some call then s.on_authenticated reply else s

/-- Runs a sequence of events from state `s`. -/
def run (s : AccountData) (events : List Event) : AccountData :=
  events.foldl step s

/-- Interactive flag the watched call was issued with, read from the record
of calls; `none` when no call is watched. -/
def inFlight (s : AccountData) : Option Bool :=
  match s.auth_watcher_ with
  | none => none
  | some call => s.account_calls.get? call

/-- The calls issued so far that are still watched, i.e. whose completion
would be applied by `on_authenticated`. -/
def outstanding (s : AccountData) : List Nat :=
  (List.range s.account_calls.length).filter (fun call => s.auth_watcher_ = some call)

/-- A watcher, when there is one, watches the call issued last, and that call
was issued with the current `authenticating_interactively_` flag; no
credentials are held meanwhile. -/
def WatcherInv (s : AccountData) : Prop :=
  ∀ call, s.auth_watcher_ = some call →
    call + 1 = s.account_calls.length ∧
    s.account_calls.get? call = some s.authenticating_interactively_ ∧
    s.credentials_valid_ = false ∧ s.credentials_ = Credentials.blank

/-- Once more than `old` calls have been issued and the watcher, if any,
watches a later call than `old`, this stays so. -/
def Superseded (old : Nat) (s : AccountData) : Prop :=
  old < s.account_calls.length ∧ ∀ call, s.auth_watcher_ = some call → old < call

end AccountData

/-- The part of a `QDBusConnection` the server changes: the object paths at
which an object is registered on the connection. -/
structure QDBusConnection where
  objects : List String
  deriving DecidableEq, Repr

namespace QDBusConnection

/-- The connection returned by `QDBusConnection::sessionBus()` in a process
that has registered nothing yet. -/
def sessionBus : QDBusConnection :=
  { objects := [] }

/-- Library call `registerObject(path, object)`: it does not replace an
object already registered at `path`. -/
def registerObject (bus : QDBusConnection) (path : String) : QDBusConnection :=
  if path ∈ bus.objects then bus else { objects := bus.objects ++ [path] }

/-- Library call `unregisterObject(path)`. -/
def unregisterObject (bus : QDBusConnection) (path : String) : QDBusConnection :=
  { objects := bus.objects.filter (fun p => p ≠ path) }

end QDBusConnection

/-- Calls the server makes on its collaborators and signals it emits, in the
order they happen: `server_->make_provider()`, `bus_->registerObject`,
`bus_->unregisterObject`, `bus_->registerService`, `Q_EMIT accountAdded()`,
`Q_EMIT accountRemoved()`, `app_->exit(code)`, `app_->quit()` and
`app_->exec()`.  The last three are static members of `QCoreApplication`:
the call is made whether or not `app_` holds an object. -/
inductive Call where
  | make_provider
  | registerObject (path : String)
  | unregisterObject (path : String)
  | registerService (name : String)
  | accountAdded
  | accountRemoved
  | exit (code : Int)
  | quit
  | exec
  deriving DecidableEq, Repr

/-- The dispatcher built in `add_account`: the account its account data was
made for (`none` for `FixedAccountData`) and the number of the
`make_provider()` call that produced its provider. -/
structure ProviderInterface where
  account : Option Account
  provider : Nat
  deriving DecidableEq, Repr

/-- The container `std::map<AccountId, unique_ptr<ProviderInterface>>`, kept as
the list of its entries in key order. -/
abbrev InterfaceMap := List (Nat × ProviderInterface)

namespace InterfaceMap

/-- Library call `find(key)`; `none` is `end()`. -/
def find : InterfaceMap → Nat → Option ProviderInterface
  | [], _ => none
  | (k, v) :: rest, key => if k = key then some v else find rest key

/-- Library call `emplace(key, value)`: nothing is inserted when the key is
present. -/
def emplace : InterfaceMap → Nat → ProviderInterface → InterfaceMap
  | [], key, value => [(key, value)]
  | (k, v) :: rest, key, value =>
    if key < k then (key, value) :: (k, v) :: rest
    else if key = k then (k, v) :: rest
    else (k, v) :: emplace rest key value

/-- Library call `erase(key)`. -/
def erase : InterfaceMap → Nat → InterfaceMap
  | [], _ => []
  | (k, v) :: rest, key => if k = key then rest else (k, v) :: erase rest key

/-- The account ids the map has an entry for. -/
def keys (m : InterfaceMap) : List Nat :=
  m.map Prod.fst

end InterfaceMap

/-- State of a `ServerImpl` once `init` has run.  `app_` tells whether the
`QCoreApplication` has been created, `manager_` whether the
`OnlineAccounts::Manager` has; `disabled_connected` lists the accounts whose
`disabled` signal is connected to `on_account_disabled`; `calls` is the record
of outgoing calls. -/
structure ServerImpl where
  bus_name_ : String
  service_id_ : String
  app_ : Bool
  bus_ : QDBusConnection
  manager_ : Bool
  interfaces_ : InterfaceMap
  disabled_connected : List Account
  calls : List Call
  deriving DecidableEq, Repr

namespace ServerImpl

/-- The object path `QStringLiteral("/provider/%1").arg(account_id)`. -/
def object_path (account_id : Nat) : String :=
  "/provider/" ++ toString account_id

/-- Number of `make_provider()` calls made so far. -/
def providers_made (s : ServerImpl) : Nat :=
  s.calls.count Call.make_provider

/-- Source: `ServerImpl::register_bus_name`.  `acquired` is the answer of
`bus_->registerService(bus_name_)`; `app_->exit(1)` is a call of the static
`QCoreApplication::exit`. -/
def register_bus_name (s : ServerImpl) (acquired : Bool) : ServerImpl :=
  let s1 := { s with calls := s.calls ++ [Call.registerService s.bus_name_] }
  if !acquired then
    { s1 with calls := s1.calls ++ [Call.exit 1] }
  else s1

/-- Source: `ServerImpl::add_account`; `none` is the null account pointer. -/
def add_account (s : ServerImpl) (account : Option Account) : ServerImpl :=
  let account_id := match account with
    | some a => a.id
    | none => 0
  if account.isSome && (s.interfaces_.find account_id).isSome then
    s
  else
    let iface : ProviderInterface := { account := account, provider := s.providers_made }
    let s1 := { s with calls := s.calls ++ [Call.make_provider] }
    let s2 := { s1 with
      bus_ := s1.bus_.registerObject (object_path account_id)
      calls := s1.calls ++ [Call.registerObject (object_path account_id)] }
    let s3 := { s2 with interfaces_ := s2.interfaces_.emplace account_id iface }
    let s4 := match account with
      | some a => { s3 with disabled_connected := s3.disabled_connected ++ [a] }
      | none => s3
    { s4 with calls := s4.calls ++ [Call.accountAdded] }

/-- Source: `ServerImpl::remove_account`. -/
def remove_account (s : ServerImpl) (account : Account) : ServerImpl :=
  if (s.interfaces_.find account.id).isNone then
    s
  else
    let s1 := { s with
      bus_ := s.bus_.unregisterObject (object_path account.id)
      calls := s.calls ++ [Call.unregisterObject (object_path account.id)] }
    let s2 := { s1 with interfaces_ := s1.interfaces_.erase account.id }
    { s2 with calls := s2.calls ++ [Call.accountRemoved] }

/-- Source: `ServerImpl::ServerImpl` followed by `ServerImpl::init`.  `bus` is
the injected connection (`none` for the null pointer); `acquired` is the
answer `registerService` gives if it is called. -/
def init (bus_name account_service_id : String) (bus : Option QDBusConnection)
    (acquired : Bool) : ServerImpl :=
  let s0 : ServerImpl :=
    { bus_name_ := bus_name
      service_id_ := account_service_id
      app_ := bus.isNone
      bus_ := match bus with
        | some b => b
        | none => QDBusConnection.sessionBus
      manager_ := false
      interfaces_ := []
      disabled_connected := []
      calls := [] }
  if s0.service_id_.isEmpty then
    register_bus_name (add_account s0 none) acquired
  else
    { s0 with manager_ := true }

/-- Source: `ServerImpl::on_account_manager_ready`.  `available` is the value
of `manager_->availableAccounts(service_id_)`. -/
def on_account_manager_ready (s : ServerImpl) (available : List Account)
    (acquired : Bool) : ServerImpl :=
  register_bus_name (available.foldl (fun st account => add_account st (some account)) s)
    acquired

/-- Source: `ServerImpl::on_account_available`. -/
def on_account_available (s : ServerImpl) (account : Account) : ServerImpl :=
  if account.serviceId ≠ s.service_id_ then s else add_account s (some account)

/-- Source: `ServerImpl::on_account_disabled`; `account` is `sender()`. -/
def on_account_disabled (s : ServerImpl) (account : Account) : ServerImpl :=
  remove_account s account

/-- Source: `ServerImpl::on_timeout`.  `app_->quit()` is a call of the static
`QCoreApplication::quit`, made whether or not `app_` holds an object. -/
def on_timeout (s : ServerImpl) : ServerImpl :=
  { s with calls := s.calls ++ [Call.quit] }

/-- Source: `ServerImpl::run`, up to the entry into `app_->exec()` (the name
`run` is kept below for running a sequence of signals).  As in `on_timeout`,
`exec` is a static member. -/
def run_application (s : ServerImpl) : ServerImpl :=
  { s with calls := s.calls ++ [Call.exec] }

/-- The exit code a call asks the application event loop to end with:
`exit(code)` asks for `code`, `quit()` is `exit(0)`; other calls ask for
nothing. -/
def requested_exit_code : Call → Option Int
  | Call.exit code => some code
  | Call.quit => some 0
  | _ => none

/-- Signals the server is connected to: `Manager::accountAvailable`,
`Account::disabled` of `account`, `Manager::ready` (with the accounts then
available for the service and the answer `registerService` will give), and
the inactivity timer's `timeout`. -/
inductive Event where
  | accountAvailable (account : Account)
  | disabled (account : Account)
  | ready (available : List Account) (acquired : Bool)
  | timeout
  deriving DecidableEq, Repr

/-- Delivery of one signal.  A signal reaches its slot only if the connection
was made: the manager's signals when `init` created the manager, an account's
`disabled` when `add_account` connected it. -/
def step (s : ServerImpl) (e : Event) : ServerImpl :=
  match e with
  | Event.accountAvailable account =>
    if s.manager_ then s.on_account_available account else s
  | Event.disabled account =>
    if account ∈ s.disabled_connected then s.on_account_disabled account else s
  | Event.ready available acquired =>
    if s.manager_ then s.on_account_manager_ready available acquired else s
  | Event.timeout => s.on_timeout

/-- Runs a sequence of signals from state `s`. -/
def run (s : ServerImpl) (events : List Event) : ServerImpl :=
  events.foldl step s

/-- The signals that add or remove accounts. -/
def Event.isAccountEvent : Event → Bool
  | Event.accountAvailable _ => true
  | Event.disabled _ => true
  | _ => false

/-- Number of `Q_EMIT accountAdded()` so far. -/
def accountAdded_count (s : ServerImpl) : Nat :=
  s.calls.count Call.accountAdded

/-- Number of `Q_EMIT accountRemoved()` so far. -/
def accountRemoved_count (s : ServerImpl) : Nat :=
  s.calls.count Call.accountRemoved

/-- The paths passed to `registerObject` so far, in order. -/
def registered_paths (s : ServerImpl) : List String :=
  s.calls.filterMap (fun c => match c with
    | Call.registerObject path => some path
    | _ => none)

/-- The account ids whose objects are published at startup: the fixed
account 0 when the service id is empty, otherwise the accounts the manager
reports at `ready`. -/
def initial_ids (account_service_id : String) (available : List Account) : List Nat :=
  if account_service_id = "" then [0] else available.map Account.id

/-- A record of calls in which the bus name is claimed after the objects of
`ids` are published: the record splits around one `registerService bus_name`
with no other `registerService` on either side, a `registerObject` for the path
of every id of `ids` before it, and no `registerObject` after it. -/
def ClaimedAfterObjects (calls : List Call) (bus_name : String) (ids : List Nat) : Prop :=
  ∃ pre post, calls = pre ++ Call.registerService bus_name :: post ∧
    (∀ name, Call.registerService name ∉ pre) ∧
    (∀ name, Call.registerService name ∉ post) ∧
    (∀ id ∈ ids, Call.registerObject (object_path id) ∈ pre) ∧
    (∀ path, Call.registerObject path ∉ post)

/-- Before the bus name is claimed: the server has a manager, no
`registerService` has been called, and every account in the map has had its
object registered. -/
structure Unclaimed (s : ServerImpl) : Prop where
  managed : s.manager_ = true
  unclaimed : ∀ name, Call.registerService name ∉ s.calls
  published : ∀ id, (s.interfaces_.find id).isSome = true →
    Call.registerObject (object_path id) ∈ s.calls

/-- Value of a decimal digit character. -/
def digitValue (c : Char) : Nat :=
  c.toNat - 48

/-- Number read from a list of decimal digit characters, most significant
first. -/
def decimalValue (digits : List Char) : Nat :=
  digits.foldl (fun value c => 10 * value + digitValue c) 0

/-- The object paths registered on the connection the server is given, before
`init` registers anything: those of the injected connection, or of the
session bus. -/
def initial_objects (bus : Option QDBusConnection) : List String :=
  match bus with
  | some b => b.objects
  | none => QDBusConnection.sessionBus.objects

/-- The registry of a server is consistent: the object paths registered on
the bus are the paths `base` that were there before `init` together with the
paths of the keys of the interface map, no key occurs twice, and the
`accountAdded` signals outnumber the `accountRemoved` signals by the size of
the map. -/
structure Registry (base : List String) (s : ServerImpl) : Prop where
  paths : ∀ path, path ∈ s.bus_.objects ↔
    path ∈ base ∨ ∃ id ∈ s.interfaces_.keys, path = object_path id
  unique : s.interfaces_.keys.Nodup
  balance : s.accountAdded_count = s.accountRemoved_count + s.interfaces_.length

end ServerImpl

/-! ## Concrete inputs used to instantiate the results -/

/-- An OAuth2 account with id 42 offering service `svc`. -/
def sampleAccount : Account :=
  { id := 42, serviceId := "svc", authenticationMethod := AuthenticationMethod.OAuth2,
    host := "" }

/-- A password account with id 7 whose `host` setting is `example.org`. -/
def passwordAccount : Account :=
  { id := 7, serviceId := "svc", authenticationMethod := AuthenticationMethod.Password,
    host := "example.org" }

/-- An OAuth2 account with id 42 offering service `other`. -/
def otherServiceAccount : Account :=
  { id := 42, serviceId := "other", authenticationMethod := AuthenticationMethod.OAuth2,
    host := "" }

/-- An injected bus connection on which the host has registered an object of
its own. -/
def hostConnection : QDBusConnection :=
  { objects := ["/host/object"] }

/-- A reply that reports an error and carries no data. -/
def failedReply : PendingCallReply :=
  { hasError := true, consumerKey := "", consumerSecret := "", token := "",
    tokenSecret := "", accessToken := "", username := "", password := "",
    dataUserName := "", dataSecret := "" }

/-- A successful password reply whose typed accessors are empty and whose raw
data carries the user name and the secret. -/
def rawPasswordReply : PendingCallReply :=
  { hasError := false, consumerKey := "", consumerSecret := "", token := "",
    tokenSecret := "", accessToken := "", username := "", password := "",
    dataUserName := "alice", dataSecret := "s3cret" }

end internal

end unity.storage.provider

/-! ## Client side and reference test backend -/

namespace unity.storage

/-- The enumeration `ItemType`.  Its declaration is not among the sources, so
the numeric value of each member is left to a parameter wherever the code
prints it. -/
inductive ItemType where
  | file
  | folder
  | root
  deriving DecidableEq, Repr

namespace internal

/-- Modelled from the spec: the record `ItemMetadata` received from a provider
(its declaration is not among the sources), with the fields of the `Item` wire
shape `(item_id, parent_id, title, etag, type, metadata)`. -/
structure ItemMetadata where
  item_id : String
  parent_id : String
  title : String
  etag : String
  type : ItemType
  metadata : List (String × String)
  deriving DecidableEq, Repr

end internal

namespace qt

/-- The client exceptions the modelled code builds: `StorageException()`,
`LocalCommsException(msg)`, and `LogicException(msg)`, which the tests expect. -/
inductive StorageException where
  | base
  | LocalCommsException (error_message : String)
  | LogicException (error_message : String)
  deriving DecidableEq, Repr

namespace internal

/-- The members of an `AccountImpl` that the accessors and comparisons read.
`QString` values are strings; of their comparison only that it is a strict
total order is used. -/
structure AccountImpl where
  is_valid_ : Bool
  bus_name_ : String
  object_path_ : String
  owner_id_ : String
  owner_ : String
  description_ : String
  deriving DecidableEq, Repr

namespace AccountImpl

/-- Source: the default constructor `AccountImpl::AccountImpl()`. -/
def invalid : AccountImpl :=
  { is_valid_ := false, bus_name_ := "", object_path_ := "", owner_id_ := "", owner_ := "",
    description_ := "" }

/-- Source: `AccountImpl::AccountImpl(runtime, bus_name, object_path, owner_id,
owner, description)`, as called by `make_account`. -/
def make_account (bus_name object_path owner_id owner description : String) : AccountImpl :=
  { is_valid_ := true, bus_name_ := bus_name, object_path_ := object_path,
    owner_id_ := owner_id, owner_ := owner, description_ := description }

/-- Source: `AccountImpl::owner`. -/
def owner (a : AccountImpl) : String :=
  if a.is_valid_ then a.owner_ else ""

/-- Source: `AccountImpl::ownerId`. -/
def ownerId (a : AccountImpl) : String :=
  if a.is_valid_ then a.owner_id_ else ""

/-- Source: `AccountImpl::description`. -/
def description (a : AccountImpl) : String :=
  if a.is_valid_ then a.description_ else ""

/-- Source: the loop of `process_reply` in `AccountImpl::roots`; `make_item` is
`ItemImpl::make_item(md, This)` for the account at hand and `metadata` is
`r.value()`. -/
def roots_process_reply {Item : Type} (make_item : unity.storage.internal.ItemMetadata → Item)
    (metadata : List unity.storage.internal.ItemMetadata) : List Item :=
  metadata.foldl
    (fun roots md => if md.type ≠ ItemType.root then roots else roots ++ [make_item md]) []

/-- Source: `AccountImpl::operator==`. -/
def operator_eq (a other : AccountImpl) : Bool :=
  if a.is_valid_ then
    other.is_valid_ && a.owner_ == other.owner_ && a.owner_id_ == other.owner_id_
      && a.description_ == other.description_
  else !other.is_valid_

/-- Source: `AccountImpl::operator!=`. -/
def operator_ne (a other : AccountImpl) : Bool :=
  !a.operator_eq other

/-- Source: `AccountImpl::operator<`. -/
def operator_lt (a other : AccountImpl) : Bool :=
  if !a.is_valid_ then other.is_valid_
  else if a.is_valid_ && !other.is_valid_ then false
  else if a.owner_id_ < other.owner_id_ then true
  else if a.owner_id_ > other.owner_id_ then false
  else if a.owner_ < other.owner_ then true
  else if a.owner_ > other.owner_ then false
  else if a.description_ < other.description_ then true
  else false

/-- Source: `AccountImpl::operator<=`. -/
def operator_le (a other : AccountImpl) : Bool :=
  a.operator_lt other || a.operator_eq other

/-- Source: `AccountImpl::operator>`. -/
def operator_gt (a other : AccountImpl) : Bool :=
  !a.operator_le other

/-- Source: `AccountImpl::operator>=`. -/
def operator_ge (a other : AccountImpl) : Bool :=
  !a.operator_lt other

/-- The lexicographic order on `(owner_id, owner, description)`. -/
def LexLess (a b : AccountImpl) : Prop :=
  a.owner_id_ < b.owner_id_ ∨
    (a.owner_id_ = b.owner_id_ ∧
      (a.owner_ < b.owner_ ∨ (a.owner_ = b.owner_ ∧ a.description_ < b.description_)))

/-- Source: `AccountImpl::hash`.  The library functions `qHash` (on `QString`)
and `boost::hash_combine` (new seed from the seed and a value) are
parameters. -/
def hash (qHash : String → Nat) (hash_combine : Nat → Nat → Nat) (a : AccountImpl) : Nat :=
  if !a.is_valid_ then 0
  else
    let hash := 0
    let hash := hash_combine hash (qHash a.owner_)
    let hash := hash_combine hash (qHash a.owner_id_)
    let hash := hash_combine hash (qHash a.description_)
    hash

end AccountImpl

end internal

namespace client.internal.remote_client

open unity.storage.internal

/-- The members of an `UploaderImpl` that `finish_upload` reads, and the number
of `provider_.FinishUpload(upload_id_)` requests it has sent. -/
structure UploaderImpl where
  upload_id_ : String
  old_etag_ : String
  finish_upload_requests : Nat
  deriving DecidableEq, Repr

namespace UploaderImpl

/-- Source: the closure `process_reply` of `UploaderImpl::finish_upload`, run
on the metadata `reply.value()`.  `make_file` is `FileImpl::make_file(md,
root_)`; `type_number` is the conversion `int(md.type)`. -/
def process_reply {File : Type} (make_file : ItemMetadata → File)
    (type_number : ItemType → Int) (md : ItemMetadata) : Except StorageException File :=
  if md.type ≠ ItemType.file then
    Except.error (StorageException.LocalCommsException
      ("Uploader::finish_upload(): impossible item type returned by server: "
        ++ toString (type_number md.type)))
  else
    Except.ok (make_file md)

/-- Source: `UploaderImpl::finish_upload`: a `FinishUpload` request is sent and
the future is the outcome of `process_reply` on the answer `reply`. -/
def finish_upload {File : Type} (u : UploaderImpl) (make_file : ItemMetadata → File)
    (type_number : ItemType → Int) (reply : ItemMetadata) :
    UploaderImpl × Except StorageException File :=
  ({ u with finish_upload_requests := u.finish_upload_requests + 1 },
    process_reply make_file type_number reply)

end UploaderImpl

/-- A `RootImpl`, given by the metadata it was made from. -/
structure RootImpl where
  md : ItemMetadata
  deriving DecidableEq, Repr

namespace RootImpl

/-- Source: `RootImpl::delete_item`; the value is the outcome of the future. -/
def delete_item (_r : RootImpl) : Except StorageException Unit :=
  Except.error StorageException.base

end RootImpl

/-- The member `destroyed_` of a `RuntimeImpl` and the number of
`conn_.disconnectFromBus(conn_.name())` calls made so far. -/
structure RuntimeImpl where
  destroyed_ : Bool
  disconnect_calls : Nat
  deriving DecidableEq, Repr

namespace RuntimeImpl

/-- Source: `RuntimeImpl::shutdown`; `destroyed_.exchange(true)` stores true
and yields the value held before. -/
def shutdown (s : RuntimeImpl) : RuntimeImpl :=
  if s.destroyed_ then { s with destroyed_ := true }
  else { destroyed_ := true, disconnect_calls := s.disconnect_calls + 1 }

/-- Source: the destructor of `RuntimeImpl`, whose body is `shutdown()`. -/
def destroy (s : RuntimeImpl) : RuntimeImpl :=
  s.shutdown

/-- The state after `n` calls of `shutdown`. -/
def shutdown_times (s : RuntimeImpl) : Nat → RuntimeImpl
  | 0 => s
  | n + 1 => (s.shutdown_times n).shutdown

end RuntimeImpl

end client.internal.remote_client

end qt

namespace provider

/-- Source: `struct Item` of `ProviderBase.h`. -/
structure Item where
  item_id : String
  parent_id : String
  title : String
  etag : String
  type : ItemType
  metadata : List (String × String)
  deriving DecidableEq, Repr

end provider

end unity.storage

/-- State of a `TestDownloadJob`: the members `data_` (one character per byte)
and `bytes_written_`, whether `timer_` is running, the bytes that have gone
into the socket, and the `report_complete()` and `report_error()` calls made.
`bytes_written_` starts at 0 and is only ever increased, so it is a natural
number. -/
structure TestDownloadJob where
  download_id : String
  data_ : List Char
  bytes_written_ : Nat
  timer_running : Bool
  socket : List Char
  report_complete_calls : Nat
  report_error_calls : List String
  deriving DecidableEq, Repr

namespace TestDownloadJob

/-- Source: the constructor `TestDownloadJob::TestDownloadJob`, which starts
the repeating timer. -/
def create (download_id : String) (data : String) : TestDownloadJob :=
  { download_id := download_id
    data_ := data.toList
    bytes_written_ := 0
    timer_running := true
    socket := []
    report_complete_calls := 0
    report_error_calls := [] }

/-- Library call `write(fd, buf, count)` on the socket, `buffer` being the
`count` bytes at `buf`.  `accept` is what the socket does with the request:
`none` makes the call fail with -1, `some k` lets it take at most `k` bytes.
The value is the number returned and the bytes taken. -/
def write (buffer : List Char) (accept : Option Nat) : Int × List Char :=
  match accept with
  | none => (-1, [])
  | some k => (((buffer.take k).length : Nat), buffer.take k)

/-- Source: `TestDownloadJob::cancel`; the future it returns is ready. -/
def cancel (s : TestDownloadJob) : TestDownloadJob :=
  { s with timer_running := false }

/-- Source: `TestDownloadJob::finish`; the value is the outcome of the future,
a failure carrying the text of the `runtime_error`. -/
def finish (s : TestDownloadJob) : Except String Unit :=
  if s.bytes_written_ < s.data_.length then
    Except.error "Not all data read"
  else
    Except.ok ()

/-- Source: `TestDownloadJob::write_some`. -/
def write_some (s : TestDownloadJob) (accept : Option Nat) : TestDownloadJob :=
  if s.bytes_written_ ≥ s.data_.length then
    { s with
      report_complete_calls := s.report_complete_calls + 1
      timer_running := false }
  else
    let result := write
      ((s.data_.drop s.bytes_written_).take (min (s.data_.length - s.bytes_written_) 2)) accept
    let n_written := result.1
    if n_written < 0 then
      { s with
        report_error_calls := s.report_error_calls ++ ["Write failure"]
        timer_running := false }
    else
      { s with
        bytes_written_ := s.bytes_written_ + n_written.toNat
        socket := s.socket ++ result.2 }

/-- One timeout of `timer_`: the connected closure runs `write_some` while the
timer is running. -/
def tick (s : TestDownloadJob) (accept : Option Nat) : TestDownloadJob :=
  if s.timer_running then s.write_some accept else s

/-- The job after a sequence of timer timeouts, each with what the socket
accepts at that moment. -/
def ticks (s : TestDownloadJob) (accepts : List (Option Nat)) : TestDownloadJob :=
  accepts.foldl tick s

/-- A timeout at which the write succeeds and takes every byte requested. -/
def fullWrite (accept : Option Nat) : Prop :=
  ∃ k, accept = some k ∧ 2 ≤ k

/-- What holds after `j` timeouts with full writes for data `d`: up to
`(d.length + 1) / 2` timeouts the first `2 * j` bytes are out, nothing has been
reported and the timer runs; after more, all bytes are out, `report_complete`
has been called once and the timer is stopped. -/
def Progress (d : List Char) (j : Nat) (s : TestDownloadJob) : Prop :=
  s.data_ = d ∧ s.report_error_calls = [] ∧
    if j ≤ (d.length + 1) / 2 then
      s.bytes_written_ = min (2 * j) d.length ∧ s.socket = d.take (2 * j) ∧
        s.report_complete_calls = 0 ∧ s.timer_running = true
    else
      s.bytes_written_ = d.length ∧ s.socket = d ∧
        s.report_complete_calls = 1 ∧ s.timer_running = false

end TestDownloadJob

namespace TestProvider

open unity.storage unity.storage.provider

/-- Source: `TestProvider::roots`. -/
def roots : List Item :=
  [{ item_id := "root_id", parent_id := "", title := "Root", etag := "etag",
     type := ItemType.root, metadata := [] }]

/-- Source: `TestProvider::list`; a failure carries the text of the
`runtime_error`. -/
def list (item_id page_token : String) : Except String (List Item × String) :=
  if item_id ≠ "root_id" then
    Except.error "Unknown folder"
  else if page_token = "" then
    Except.ok
      ([{ item_id := "child1_id", parent_id := "root_id", title := "Child 1", etag := "etag",
          type := ItemType.file, metadata := [] },
        { item_id := "child2_id", parent_id := "root_id", title := "Child 2", etag := "etag",
          type := ItemType.file, metadata := [] }],
       "page_token")
  else if page_token = "page_token" then
    Except.ok
      ([{ item_id := "child3_id", parent_id := "root_id", title := "Child 4", etag := "etag",
          type := ItemType.file, metadata := [] },
        { item_id := "child4_id", parent_id := "root_id", title := "Child 3", etag := "etag",
          type := ItemType.file, metadata := [] }],
       "")
  else
    Except.error "Unknown page token"

/-- Source: `TestProvider::lookup`. -/
def lookup (parent_id name : String) : List Item :=
  [{ item_id := "child_id", parent_id := parent_id, title := name, etag := "etag",
     type := ItemType.file, metadata := [] }]

/-- Source: `TestProvider::metadata`. -/
def metadata (item_id : String) : Except String Item :=
  if item_id = "root_id" then
    Except.ok { item_id := "root_id", parent_id := "", title := "Root", etag := "etag",
                type := ItemType.root, metadata := [] }
  else
    Except.error "Unknown item"

/-- Source: `TestProvider::create_folder`. -/
def create_folder (parent_id name : String) : Item :=
  { item_id := "new_folder_id", parent_id := parent_id, title := name, etag := "etag",
    type := ItemType.folder, metadata := [] }

/-- Source: `TestProvider::move`. -/
def move (item_id new_parent_id new_name : String) : Item :=
  { item_id := item_id, parent_id := new_parent_id, title := new_name, etag := "etag",
    type := ItemType.file, metadata := [] }

/-- Source: `TestProvider::copy`. -/
def copy (_item_id new_parent_id new_name : String) : Item :=
  { item_id := "new_id", parent_id := new_parent_id, title := new_name, etag := "etag",
    type := ItemType.file, metadata := [] }

/-- Source: `TestProvider::download`; the job the future holds. -/
def download (_item_id : String) : TestDownloadJob :=
  TestDownloadJob.create "download_id" "Hello world"

/-- The items an operation of the backend can return: those of `roots`, of a
successful `list`, of `lookup`, and the items of `create_folder`, `move` and
`copy`. -/
inductive Returned : Item → Prop where
  | roots (item : Item) (h : item ∈ roots) : Returned item
  | list (item_id page_token : String) (items : List Item) (next : String)
      (hlist : list item_id page_token = Except.ok (items, next)) (item : Item)
      (h : item ∈ items) : Returned item
  | lookup (parent_id name : String) (item : Item) (h : item ∈ lookup parent_id name) :
      Returned item
  | create_folder (parent_id name : String) : Returned (create_folder parent_id name)
  | move (item_id new_parent_id new_name : String) :
      Returned (move item_id new_parent_id new_name)
  | copy (item_id new_parent_id new_name : String) :
      Returned (copy item_id new_parent_id new_name)

/-- A client that lists folder `item_id` from `page_token` and keeps asking
for the next page until the next token is empty; it gives up (`none`) when a
request fails or after `fuel` requests. -/
def list_pages (item_id : String) : Nat → String → Option (List (List Item))
  | 0, _ => none
  | fuel + 1, page_token =>
    match list item_id page_token with
    | Except.error _ => none
    | Except.ok (items, next) =>
      if next = "" then some [items]
      else (list_pages item_id fuel next).map (fun pages => items :: pages)

end TestProvider

/-! ## Concrete inputs for the client side -/

namespace unity.storage.qt

open unity.storage.internal

/-- The numbering of `ItemType` members in declaration order `file`, `folder`,
`root`. -/
def sampleTypeNumber : ItemType → Int
  | ItemType.file => 0
  | ItemType.folder => 1
  | ItemType.root => 2

/-- Metadata of a file `file_id` in `root_id`. -/
def sampleFileMetadata : ItemMetadata :=
  { item_id := "file_id", parent_id := "root_id", title := "new_file", etag := "etag",
    type := ItemType.file, metadata := [] }

/-- Metadata of another file, `other_id`, in `root_id`. -/
def otherFileMetadata : ItemMetadata :=
  { item_id := "other_id", parent_id := "root_id", title := "new_file", etag := "etag2",
    type := ItemType.file, metadata := [] }

/-- Metadata of a folder `folder_id` in `root_id`. -/
def sampleFolderMetadata : ItemMetadata :=
  { item_id := "folder_id", parent_id := "root_id", title := "folder", etag := "etag",
    type := ItemType.folder, metadata := [] }

/-- Metadata of the root `root_id`. -/
def sampleRootMetadata : ItemMetadata :=
  { item_id := "root_id", parent_id := "", title := "Root", etag := "etag",
    type := ItemType.root, metadata := [] }

/-- An uploader that has sent no request yet. -/
def sampleUploader : client.internal.remote_client.UploaderImpl :=
  { upload_id_ := "upload_id", old_etag_ := "", finish_upload_requests := 0 }

/-- A valid account of owner `alice` reached at bus name `com.example.one`. -/
def accountOne : internal.AccountImpl :=
  internal.AccountImpl.make_account "com.example.one" "/provider/1" "1" "alice" "drive"

/-- The account `accountOne` as reached at another bus name and object path. -/
def accountOneElsewhere : internal.AccountImpl :=
  internal.AccountImpl.make_account "com.example.two" "/provider/2" "1" "alice" "drive"

/-- A valid account with a greater owner id. -/
def accountTwo : internal.AccountImpl :=
  internal.AccountImpl.make_account "com.example.one" "/provider/1" "2" "alice" "drive"

end unity.storage.qt

/-! # Properties -/

namespace unity.storage.provider.internal

open OnlineAccounts

namespace AccountData

/-! ## Shared lemmas on the authentication state machine -/

theorem watcherInv_authenticate (s : AccountData) (interactive : Bool)
    (h : WatcherInv s) : WatcherInv (s.authenticate interactive) := by
  unfold authenticate
  split
  · exact h
  · intro call hc
    simp only [Option.some.injEq] at hc
    subst hc
    simp

theorem auth_watcher_on_authenticated (s : AccountData) (reply : PendingCallReply) :
    (s.on_authenticated reply).auth_watcher_ = none := by
  simp [on_authenticated]

theorem account_calls_on_authenticated (s : AccountData) (reply : PendingCallReply) :
    (s.on_authenticated reply).account_calls = s.account_calls := by
  simp only [on_authenticated]
  repeat' split
  all_goals rfl

theorem watcherInv_step (s : AccountData) (e : Event) (h : WatcherInv s) :
    WatcherInv (s.step e) := by
  cases e with
  | authenticate interactive => exact watcherInv_authenticate s interactive h
  | finished call reply =>
    simp only [step]
    split
    · intro c hc
      rw [auth_watcher_on_authenticated] at hc
      cases hc
    · exact h

theorem watcherInv_run (events : List Event) (s : AccountData) (h : WatcherInv s) :
    WatcherInv (s.run events) := by
  induction events generalizing s with
  | nil => exact h
  | cons e rest ih => exact ih (s.step e) (watcherInv_step s e h)

theorem watcherInv_construct (account : Account) (interactive0 valid0 : Bool) :
    WatcherInv (construct account interactive0 valid0) := by
  apply watcherInv_authenticate
  intro call hc
  cases hc

theorem superseded_step (old : Nat) (s : AccountData) (e : Event) (h : Superseded old s) :
    Superseded old (s.step e) := by
  cases e with
  | authenticate interactive =>
    simp only [step, authenticate]
    split
    · exact h
    · refine ⟨?_, ?_⟩
      · simp only [List.length_append, List.length_singleton]
        exact Nat.lt_succ_of_lt h.1
      · intro call hc
        simp only [Option.some.injEq] at hc
        subst hc
        exact h.1
  | finished call reply =>
    simp only [step]
    split
    · refine ⟨?_, ?_⟩
      · rw [account_calls_on_authenticated]
        exact h.1
      · intro c hc
        rw [auth_watcher_on_authenticated] at hc
        cases hc
    · exact h

theorem superseded_run (old : Nat) (events : List Event) (s : AccountData)
    (h : Superseded old s) : Superseded old (s.run events) := by
  induction events generalizing s with
  | nil => exact h
  | cons e rest ih => exact ih (s.step e) (superseded_step old s e h)

theorem outstanding_of_none (s : AccountData) (h : s.auth_watcher_ = none) :
    s.outstanding = [] := by
  simp [outstanding, h]

theorem outstanding_of_some (s : AccountData) (call : Nat) (h : s.auth_watcher_ = some call)
    (hlt : call < s.account_calls.length) : s.outstanding = [call] := by
  unfold outstanding
  rw [h]
  have hnd : (List.range s.account_calls.length).Nodup := List.nodup_range _
  have hmem : call ∈ List.range s.account_calls.length := List.mem_range.mpr hlt
  generalize List.range s.account_calls.length = l at hnd hmem
  induction l with
  | nil => cases hmem
  | cons x xs ih =>
    rw [List.nodup_cons] at hnd
    rw [List.filter_cons]
    by_cases hx : x = call
    · subst hx
      simp only [decide_True, if_true]
      congr 1
      rw [List.filter_eq_nil_iff]
      intro y hy hy2
      simp only [Option.some.injEq, decide_eq_true_eq] at hy2
      exact hnd.1 (hy2 ▸ hy)
    · have hne : ¬ (some call = some x) := fun h2 => hx (Option.some.inj h2).symm
      simp only [hne, decide_False, Bool.false_eq_true, if_false]
      apply ih hnd.2
      rcases List.mem_cons.mp hmem with h3 | h3
      · exact absurd h3.symm hx
      · exact h3

/-! ## Authentication: completion, joining, superseding, single flight -/

/-- C1 (as amended): when an authentication request completes
(`on_authenticated`), `has_credentials()` is true afterwards for every account,
hence every authentication method, and for every reply, whether or not the
reply reported an error. -/
theorem on_authenticated_has_credentials (s : AccountData) (reply : PendingCallReply) :
    (s.on_authenticated reply).has_credentials = true := by
  simp only [on_authenticated, has_credentials]
  repeat' split
  all_goals rfl

/-- C1 (counterexample to the claim as stated): the first call of a freshly
constructed OAuth2 account finishes with a reply that reports an error, and
`has_credentials()` is true afterwards, not false. -/
theorem failed_reply_has_credentials :
    failedReply.hasError = true ∧
    (construct sampleAccount false false).auth_watcher_ = some 0 ∧
    ((construct sampleAccount false false).step
      (Event.finished 0 failedReply)).has_credentials = true := by
  decide

/-- C2: in every state reached from construction in which a call is in flight,
`authenticate(interactive)` changes nothing at all (no call is issued, the
watched call, the interactive flag, the credentials and the validity flag stay
as they are) whenever the call in flight is interactive or the request is
non-interactive. -/
theorem authenticate_joins_in_flight (account : Account) (interactive0 valid0 : Bool)
    (events : List Event) (interactive inflight : Bool)
    (hflight : ((construct account interactive0 valid0).run events).inFlight = some inflight)
    (hjoin : inflight = true ∨ interactive = false) :
    ((construct account interactive0 valid0).run events).authenticate interactive =
      (construct account interactive0 valid0).run events := by
  have hinv := watcherInv_run events _ (watcherInv_construct account interactive0 valid0)
  generalize (construct account interactive0 valid0).run events = s at hflight hinv
  unfold inFlight at hflight
  cases hw : s.auth_watcher_ with
  | none => simp [hw] at hflight
  | some call =>
    simp only [hw] at hflight
    have hflag := (hinv call hw).2.1
    rw [hflight] at hflag
    have hflag2 : s.authenticating_interactively_ = inflight := (Option.some.inj hflag).symm
    unfold authenticate
    rw [if_pos]
    rw [hw, hflag2]
    rcases hjoin with h | h <;> simp [h]

/-- C2 (instance): after construction and a superseding `authenticate(true)`,
an interactive call is in flight and `authenticate(false)` joins it. -/
theorem authenticate_joins_in_flight_witness :
    ((construct sampleAccount false false).run [Event.authenticate true]).inFlight = some true ∧
    ((construct sampleAccount false false).run [Event.authenticate true]).authenticate false =
      (construct sampleAccount false false).run [Event.authenticate true] :=
  ⟨by decide,
   authenticate_joins_in_flight sampleAccount false false [Event.authenticate true] false true
     (by decide) (Or.inl rfl)⟩

/-- C3: in every state reached from construction in which a non-interactive
call `old` is in flight, `authenticate(true)` issues exactly one new call, with
interactive set, which becomes the only outstanding request; and whatever
happens later, the completion of `old` is delivered to nobody: it changes
nothing, so it is never applied to the credentials. -/
theorem authenticate_interactive_supersedes (account : Account) (interactive0 valid0 : Bool)
    (events : List Event) (old : Nat)
    (hwatch : ((construct account interactive0 valid0).run events).auth_watcher_ = some old)
    (hflight : ((construct account interactive0 valid0).run events).inFlight = some false) :
    (((construct account interactive0 valid0).run events).authenticate true).account_calls =
      ((construct account interactive0 valid0).run events).account_calls ++ [true] ∧
    (((construct account interactive0 valid0).run events).authenticate true).outstanding =
      [((construct account interactive0 valid0).run events).account_calls.length] ∧
    (((construct account interactive0 valid0).run events).authenticate true).inFlight =
      some true ∧
    old < ((construct account interactive0 valid0).run events).account_calls.length ∧
    ∀ (later : List Event) (reply : PendingCallReply),
      ((((construct account interactive0 valid0).run events).authenticate true).run later).step
          (Event.finished old reply) =
        (((construct account interactive0 valid0).run events).authenticate true).run later := by
  have hinv := watcherInv_run events _ (watcherInv_construct account interactive0 valid0)
  generalize (construct account interactive0 valid0).run events = s at hwatch hflight hinv
  obtain ⟨hlast, hflag, -, -⟩ := hinv old hwatch
  simp only [inFlight, hwatch] at hflight
  rw [hflight] at hflag
  have hflag2 : s.authenticating_interactively_ = false := (Option.some.inj hflag).symm
  have hlt : old < s.account_calls.length := by omega
  have hauth : s.authenticate true =
      { s with
        authenticating_interactively_ := true
        credentials_valid_ := false
        credentials_ := Credentials.blank
        account_calls := s.account_calls ++ [true]
        auth_watcher_ := some s.account_calls.length } := by
    simp [authenticate, hwatch, hflag2]
  rw [hauth]
  refine ⟨rfl, ?_, ?_, hlt, ?_⟩
  · apply outstanding_of_some
    · rfl
    · simp
  · simp [inFlight]
  · intro later reply
    have hsup : Superseded old
        { s with
          authenticating_interactively_ := true
          credentials_valid_ := false
          credentials_ := Credentials.blank
          account_calls := s.account_calls ++ [true]
          auth_watcher_ := some s.account_calls.length } := by
      refine ⟨?_, ?_⟩
      · simp only [List.length_append, List.length_singleton]
        omega
      · intro call hc
        simp only [Option.some.injEq] at hc
        omega
    have hlater := superseded_run old later _ hsup
    simp only [step]
    rw [if_neg]
    intro hc
    exact absurd (hlater.2 old hc) (Nat.lt_irrefl old)

/-- C3 (instance): right after construction the non-interactive call 0 is in
flight; `authenticate(true)` issues call 1 and call 0 is never applied. -/
theorem authenticate_interactive_supersedes_witness :
    ((construct sampleAccount false false).run []).auth_watcher_ = some 0 ∧
    ((construct sampleAccount false false).run []).inFlight = some false ∧
    (((construct sampleAccount false false).run []).authenticate true).account_calls =
      [false, true] ∧
    (((construct sampleAccount false false).run []).authenticate true).outstanding = [1] ∧
    ∀ (later : List Event) (reply : PendingCallReply),
      ((((construct sampleAccount false false).run []).authenticate true).run later).step
          (Event.finished 0 reply) =
        (((construct sampleAccount false false).run []).authenticate true).run later :=
  have h := authenticate_interactive_supersedes sampleAccount false false [] 0
    (by decide) (by decide)
  ⟨by decide, by decide, h.1, h.2.1, h.2.2.2.2⟩

/-- C4: in every state reached from construction by any sequence of
`authenticate` calls and call completions, at most one issued call is
outstanding (watched); there is exactly one precisely when `auth_watcher_` is
set, and it is then the call issued last. -/
theorem auth_single_flight (account : Account) (interactive0 valid0 : Bool)
    (events : List Event) :
    ((construct account interactive0 valid0).run events).outstanding.length ≤ 1 ∧
    (((construct account interactive0 valid0).run events).auth_watcher_ = none →
      ((construct account interactive0 valid0).run events).outstanding = []) ∧
    (((construct account interactive0 valid0).run events).auth_watcher_ ≠ none →
      ((construct account interactive0 valid0).run events).outstanding =
        [((construct account interactive0 valid0).run events).account_calls.length - 1]) := by
  have hinv := watcherInv_run events _ (watcherInv_construct account interactive0 valid0)
  generalize (construct account interactive0 valid0).run events = s at hinv
  cases hw : s.auth_watcher_ with
  | none =>
    rw [outstanding_of_none s hw]
    simp
  | some call =>
    have hlast := (hinv call hw).1
    rw [outstanding_of_some s call hw (by omega)]
    refine ⟨by simp, by simp, ?_⟩
    intro _
    congr 1
    omega

/-- C5: after `on_authenticated` the stored credentials are blank (None) when
the reply reported an error or the method is none of OAuth1, OAuth2, Password;
otherwise they are the variant of the account's method: OAuth1 credentials
with the reply's consumer key, consumer secret, token and token secret; OAuth2
credentials with the access token; Password credentials with the account's
`host` setting and the reply's user name and password (read from the raw reply
data when both typed fields are empty). -/
theorem on_authenticated_credentials (s : AccountData) (reply : PendingCallReply) :
    (reply.hasError = true → (s.on_authenticated reply).credentials = Credentials.blank) ∧
    (∀ tag, s.account_.authenticationMethod = AuthenticationMethod.Other tag →
      (s.on_authenticated reply).credentials = Credentials.blank) ∧
    (reply.hasError = false → s.account_.authenticationMethod = AuthenticationMethod.OAuth1 →
      (s.on_authenticated reply).credentials =
        Credentials.OAuth1Credentials reply.consumerKey reply.consumerSecret reply.token
          reply.tokenSecret) ∧
    (reply.hasError = false → s.account_.authenticationMethod = AuthenticationMethod.OAuth2 →
      (s.on_authenticated reply).credentials =
        Credentials.OAuth2Credentials reply.accessToken) ∧
    (reply.hasError = false → s.account_.authenticationMethod = AuthenticationMethod.Password →
      (s.on_authenticated reply).credentials =
        if reply.username = "" ∧ reply.password = "" then
          Credentials.PasswordCredentials reply.dataUserName reply.dataSecret s.account_.host
        else
          Credentials.PasswordCredentials reply.username reply.password s.account_.host) := by
  refine ⟨?_, ?_, ?_, ?_, ?_⟩
  · intro herr
    simp only [on_authenticated, credentials, herr, if_true]
    split <;> rfl
  · intro tag hm
    simp only [on_authenticated, credentials, hm]
  · intro herr hm
    simp [on_authenticated, credentials, hm, herr]
  · intro herr hm
    simp [on_authenticated, credentials, hm, herr]
  · intro herr hm
    simp only [on_authenticated, credentials, hm, herr]
    by_cases h : reply.username = "" ∧ reply.password = ""
    · simp [h, String.isEmpty]
    · rw [if_neg h]
      have h2 : ¬ ((reply.username.isEmpty && reply.password.isEmpty) = true) := by
        simpa [String.isEmpty_iff] using h
      simp [h2]

/-- C5 (instance): a password account with host `example.org` whose successful
reply carries the user name and secret only in the raw data ends with those as
its Password credentials; the same account ends with blank credentials after a
failed reply. -/
theorem on_authenticated_credentials_witness :
    ((construct passwordAccount false false).on_authenticated rawPasswordReply).credentials =
      Credentials.PasswordCredentials "alice" "s3cret" "example.org" ∧
    ((construct passwordAccount false false).on_authenticated failedReply).credentials =
      Credentials.blank :=
  ⟨((on_authenticated_credentials (construct passwordAccount false false)
      rawPasswordReply).2.2.2.2 rfl rfl).trans (by decide),
   (on_authenticated_credentials (construct passwordAccount false false) failedReply).1 rfl⟩

/-- C6: right after the constructor returns, exactly one authentication call
has been issued, with interactive unset; it is the outstanding (watched)
request; `has_credentials()` is false and the credentials are blank. -/
theorem construct_begins_authentication (account : Account) (interactive0 valid0 : Bool) :
    (construct account interactive0 valid0).account_calls = [false] ∧
    (construct account interactive0 valid0).auth_watcher_ = some 0 ∧
    (construct account interactive0 valid0).outstanding = [0] ∧
    (construct account interactive0 valid0).inFlight = some false ∧
    (construct account interactive0 valid0).has_credentials = false ∧
    (construct account interactive0 valid0).credentials = Credentials.blank := by
  simp [construct, authenticate, outstanding, inFlight, has_credentials, credentials,
    List.range_succ]

end AccountData

end unity.storage.provider.internal

namespace unity.storage.provider.internal

open OnlineAccounts

namespace InterfaceMap

/-! ## Shared lemmas on the interface map -/

theorem find_emplace_self (m : InterfaceMap) (key : Nat) (value : ProviderInterface)
    (h : m.find key = none) : (m.emplace key value).find key = some value := by
  induction m with
  | nil => simp [emplace, find]
  | cons kv rest ih =>
    obtain ⟨k, v⟩ := kv
    simp only [find] at h
    split at h
    · cases h
    · rename_i hne
      simp only [emplace]
      split
      · simp [find]
      · rw [if_neg (fun h2 => hne h2.symm)]
        simp only [find, if_neg hne]
        exact ih h

theorem find_emplace_isSome (m : InterfaceMap) (key : Nat) (value : ProviderInterface)
    (other : Nat) (h : ((m.emplace key value).find other).isSome = true) :
    other = key ∨ (m.find other).isSome = true := by
  induction m with
  | nil =>
    simp only [emplace, find] at h
    split at h
    · rename_i h2
      exact Or.inl h2.symm
    · cases h
  | cons kv rest ih =>
    obtain ⟨k, v⟩ := kv
    simp only [emplace] at h
    split at h
    · simp only [find] at h
      split at h
      · rename_i h2
        exact Or.inl h2.symm
      · exact Or.inr (by simpa [find] using h)
    · split at h
      · exact Or.inr h
      · simp only [find] at h ⊢
        split
        · exact Or.inr rfl
        · rename_i hne
          rw [if_neg hne] at h
          exact ih h

theorem find_erase_isSome (m : InterfaceMap) (key other : Nat)
    (h : ((m.erase key).find other).isSome = true) : (m.find other).isSome = true := by
  induction m with
  | nil => simp [erase, find] at h
  | cons kv rest ih =>
    obtain ⟨k, v⟩ := kv
    simp only [erase] at h
    simp only [find]
    split at h
    · split
      · rfl
      · exact h
    · simp only [find] at h
      split
      · rfl
      · rename_i hne
        rw [if_neg hne] at h
        exact ih h

theorem erase_emplace (m : InterfaceMap) (key : Nat) (value : ProviderInterface)
    (h : m.find key = none) : (m.emplace key value).erase key = m := by
  induction m with
  | nil => simp [emplace, erase]
  | cons kv rest ih =>
    obtain ⟨k, v⟩ := kv
    simp only [find] at h
    split at h
    · cases h
    · rename_i hne
      simp only [emplace]
      split
      · simp [erase]
      · rw [if_neg (fun h2 => hne h2.symm)]
        simp only [erase, if_neg hne]
        rw [ih h]

end InterfaceMap

namespace ServerImpl

/-! ## Shared lemmas on the server controller -/

theorem add_account_known (s : ServerImpl) (a : Account)
    (h : (s.interfaces_.find a.id).isSome = true) : s.add_account (some a) = s := by
  simp [add_account, h]

theorem add_account_new (s : ServerImpl) (a : Account) (h : s.interfaces_.find a.id = none) :
    s.add_account (some a) =
      { s with
        bus_ := s.bus_.registerObject (object_path a.id)
        interfaces_ := s.interfaces_.emplace a.id { account := some a, provider := s.providers_made }
        disabled_connected := s.disabled_connected ++ [a]
        calls := s.calls ++ [Call.make_provider, Call.registerObject (object_path a.id),
          Call.accountAdded] } := by
  simp [add_account, h, providers_made]

theorem remove_account_unknown (s : ServerImpl) (a : Account)
    (h : s.interfaces_.find a.id = none) : s.remove_account a = s := by
  simp [remove_account, h]

theorem remove_account_known (s : ServerImpl) (a : Account)
    (h : (s.interfaces_.find a.id).isSome = true) :
    s.remove_account a =
      { s with
        bus_ := s.bus_.unregisterObject (object_path a.id)
        interfaces_ := s.interfaces_.erase a.id
        calls := s.calls ++ [Call.unregisterObject (object_path a.id), Call.accountRemoved] } := by
  have h2 : ¬ ((s.interfaces_.find a.id).isNone = true) := by
    cases hf : s.interfaces_.find a.id with
    | none => simp [hf] at h
    | some v => simp
  simp [remove_account, h2]

theorem unclaimed_add_account (s : ServerImpl) (a : Account) (h : Unclaimed s) :
    Unclaimed (s.add_account (some a)) ∧
    (s.add_account (some a)).bus_name_ = s.bus_name_ ∧
    (s.add_account (some a)).app_ = s.app_ ∧
    Call.registerObject (object_path a.id) ∈ (s.add_account (some a)).calls ∧
    ∀ c, c ∈ s.calls → c ∈ (s.add_account (some a)).calls := by
  cases hf : s.interfaces_.find a.id with
  | some v =>
    have hk : (s.interfaces_.find a.id).isSome = true := by simp [hf]
    rw [add_account_known s a hk]
    exact ⟨h, rfl, rfl, h.published a.id hk, fun c hc => hc⟩
  | none =>
    rw [add_account_new s a hf]
    refine ⟨⟨h.managed, ?_, ?_⟩, rfl, rfl, ?_, ?_⟩
    · intro name hmem
      simp only [List.mem_append, List.mem_cons, List.mem_singleton, List.not_mem_nil,
        or_false] at hmem
      rcases hmem with hmem | hmem | hmem | hmem
      · exact h.unclaimed name hmem
      · cases hmem
      · cases hmem
      · cases hmem
    · intro id hid
      rcases InterfaceMap.find_emplace_isSome _ _ _ _ hid with h2 | h2
      · subst h2
        simp
      · exact List.mem_append_left _ (h.published id h2)
    · simp
    · intro c hc
      exact List.mem_append_left _ hc

theorem unclaimed_remove_account (s : ServerImpl) (a : Account) (h : Unclaimed s) :
    Unclaimed (s.remove_account a) ∧ (s.remove_account a).bus_name_ = s.bus_name_ ∧
    (s.remove_account a).app_ = s.app_ := by
  cases hf : s.interfaces_.find a.id with
  | none =>
    rw [remove_account_unknown s a hf]
    exact ⟨h, rfl, rfl⟩
  | some v =>
    have hk : (s.interfaces_.find a.id).isSome = true := by simp [hf]
    rw [remove_account_known s a hk]
    refine ⟨⟨h.managed, ?_, ?_⟩, rfl, rfl⟩
    · intro name hmem
      simp only [List.mem_append, List.mem_cons, List.mem_singleton, List.not_mem_nil,
        or_false] at hmem
      rcases hmem with hmem | hmem | hmem
      · exact h.unclaimed name hmem
      · cases hmem
      · cases hmem
    · intro id hid
      exact List.mem_append_left _ (h.published id (InterfaceMap.find_erase_isSome _ _ _ hid))

theorem unclaimed_step (s : ServerImpl) (e : Event) (he : e.isAccountEvent = true)
    (h : Unclaimed s) :
    Unclaimed (s.step e) ∧ (s.step e).bus_name_ = s.bus_name_ ∧ (s.step e).app_ = s.app_ := by
  cases e with
  | accountAvailable a =>
    simp only [step, h.managed, on_account_available, if_true]
    split
    · exact ⟨h, rfl, rfl⟩
    · have h2 := unclaimed_add_account s a h
      exact ⟨h2.1, h2.2.1, h2.2.2.1⟩
  | disabled a =>
    simp only [step, on_account_disabled]
    split
    · exact unclaimed_remove_account s a h
    · exact ⟨h, rfl, rfl⟩
  | ready available acquired => cases he
  | timeout => cases he

theorem unclaimed_run (events : List Event) (s : ServerImpl)
    (he : ∀ e ∈ events, e.isAccountEvent = true) (h : Unclaimed s) :
    Unclaimed (s.run events) ∧ (s.run events).bus_name_ = s.bus_name_ ∧
    (s.run events).app_ = s.app_ := by
  induction events generalizing s with
  | nil => exact ⟨h, rfl, rfl⟩
  | cons e rest ih =>
    have h1 := unclaimed_step s e (he e (List.mem_cons_self _ _)) h
    have h2 := ih (s.step e) (fun x hx => he x (List.mem_cons_of_mem _ hx)) h1.1
    exact ⟨h2.1, h2.2.1.trans h1.2.1, h2.2.2.trans h1.2.2⟩

theorem unclaimed_add_all (available : List Account) (s : ServerImpl) (h : Unclaimed s) :
    Unclaimed (available.foldl (fun st account => add_account st (some account)) s) ∧
    (available.foldl (fun st account => add_account st (some account)) s).bus_name_ =
      s.bus_name_ ∧
    (available.foldl (fun st account => add_account st (some account)) s).app_ = s.app_ ∧
    (∀ a ∈ available, Call.registerObject (object_path a.id) ∈
      (available.foldl (fun st account => add_account st (some account)) s).calls) ∧
    ∀ c, c ∈ s.calls →
      c ∈ (available.foldl (fun st account => add_account st (some account)) s).calls := by
  induction available generalizing s with
  | nil => exact ⟨h, rfl, rfl, fun a ha => absurd ha (List.not_mem_nil a), fun c hc => hc⟩
  | cons a rest ih =>
    have h1 := unclaimed_add_account s a h
    have h2 := ih (s.add_account (some a)) h1.1
    simp only [List.foldl_cons]
    refine ⟨h2.1, h2.2.1.trans h1.2.1, h2.2.2.1.trans h1.2.2.1, ?_, ?_⟩
    · intro x hx
      rcases List.mem_cons.mp hx with hx | hx
      · subst hx
        exact h2.2.2.2.2 _ h1.2.2.2.1
      · exact h2.2.2.2.1 x hx
    · intro c hc
      exact h2.2.2.2.2 c (h1.2.2.2.2 c hc)

theorem run_events_append (s : ServerImpl) (xs ys : List Event) :
    s.run (xs ++ ys) = (s.run xs).run ys := by
  simp [run, List.foldl_append]

/-- A server without manager and without connected accounts ignores the
manager's and the accounts' signals. -/
theorem step_unmanaged (s : ServerImpl) (e : Event) (hm : s.manager_ = false)
    (hd : s.disabled_connected = []) (he : e ≠ Event.timeout) : s.step e = s := by
  cases e with
  | accountAvailable a => simp [step, hm]
  | disabled a => simp [step, hd]
  | ready available acquired => simp [step, hm]
  | timeout => exact absurd rfl he

theorem run_unmanaged (events : List Event) (s : ServerImpl) (hm : s.manager_ = false)
    (hd : s.disabled_connected = []) (he : ∀ e ∈ events, e ≠ Event.timeout) :
    s.run events = s := by
  induction events with
  | nil => rfl
  | cons e rest ih =>
    simp only [run, List.foldl_cons]
    rw [step_unmanaged s e hm hd (he e (List.mem_cons_self _ _))]
    exact ih (fun x hx => he x (List.mem_cons_of_mem _ hx))

theorem register_bus_name_calls (s : ServerImpl) (acquired : Bool) :
    ∃ post, (s.register_bus_name acquired).calls =
        s.calls ++ Call.registerService s.bus_name_ :: post ∧
      (post = [] ∨ post = [Call.exit 1]) := by
  cases acquired with
  | true => exact ⟨[], by simp [register_bus_name], Or.inl rfl⟩
  | false => exact ⟨[Call.exit 1], by simp [register_bus_name], Or.inr rfl⟩

theorem init_fixed (bus_name : String) (bus : Option QDBusConnection) (acquired : Bool) :
    (init bus_name "" bus acquired).manager_ = false ∧
    (init bus_name "" bus acquired).disabled_connected = [] ∧
    (init bus_name "" bus acquired).interfaces_ = [(0, { account := none, provider := 0 })] ∧
    (init bus_name "" bus acquired).calls =
      [Call.make_provider, Call.registerObject "/provider/0", Call.accountAdded,
        Call.registerService bus_name] ++
        (if acquired = false then [Call.exit 1] else []) := by
  have hp : object_path 0 = "/provider/0" := by decide
  have he : "".isEmpty = true := by decide
  cases acquired <;> cases bus <;>
    simp [init, he, add_account, register_bus_name, hp, providers_made, InterfaceMap.emplace]

theorem init_online (bus_name account_service_id : String) (bus : Option QDBusConnection)
    (acquired : Bool) (h : account_service_id ≠ "") :
    Unclaimed (init bus_name account_service_id bus acquired) ∧
    (init bus_name account_service_id bus acquired).bus_name_ = bus_name := by
  have he : ¬ (account_service_id.isEmpty = true) := by
    rw [String.isEmpty_iff]
    exact h
  simp only [init, he, if_false, Bool.false_eq_true]
  exact ⟨⟨rfl, fun name hmem => absurd hmem (List.not_mem_nil _),
    fun id hid => by simp [InterfaceMap.find] at hid⟩, trivial⟩

/-! ## Startup order and account events -/

/-- C7: in every startup (`init`, then any account-available and
account-disabled signals, then the manager's `ready` with any list of
accounts), the record of calls has one `registerService(bus_name)`; the
`registerObject` of the object of every initial account (account 0 in fixed
mode, each reported account in online mode) comes before it and no
`registerObject` comes after it. -/
theorem bus_name_claimed_after_objects (bus_name account_service_id : String)
    (bus : Option QDBusConnection) (acquired0 : Bool) (events : List Event)
    (available : List Account) (acquired : Bool)
    (he : ∀ e ∈ events, e.isAccountEvent = true) :
    ClaimedAfterObjects
      ((init bus_name account_service_id bus acquired0).run
        (events ++ [Event.ready available acquired])).calls
      bus_name (initial_ids account_service_id available) := by
  by_cases hs : account_service_id = ""
  · subst hs
    obtain ⟨hm, hd, -, hc⟩ := init_fixed bus_name bus acquired0
    have hnt : ∀ e ∈ events ++ [Event.ready available acquired], e ≠ Event.timeout := by
      intro e hmem
      rcases List.mem_append.mp hmem with h1 | h1
      · intro h2
        have h3 := he e h1
        rw [h2] at h3
        cases h3
      · rw [List.mem_singleton.mp h1]
        intro h2
        cases h2
    rw [run_unmanaged _ _ hm hd hnt, hc]
    refine ⟨[Call.make_provider, Call.registerObject "/provider/0", Call.accountAdded],
      if acquired0 = false then [Call.exit 1] else [], by simp, ?_, ?_, ?_, ?_⟩
    · intro name
      simp
    · intro name
      split <;> simp
    · intro id hid
      simp only [initial_ids, if_true, List.mem_singleton] at hid
      subst hid
      have hp : object_path 0 = "/provider/0" := by decide
      simp [hp]
    · intro path
      split <;> simp
  · obtain ⟨hu, hb⟩ := init_online bus_name account_service_id bus acquired0 hs
    obtain ⟨hu1, hb1, -⟩ := unclaimed_run events _ he hu
    rw [run_events_append]
    generalize (init bus_name account_service_id bus acquired0).run events = s1 at hu1 hb1
    have hstep : s1.run [Event.ready available acquired] =
        s1.on_account_manager_ready available acquired := by
      simp [run, step, hu1.managed]
    rw [hstep]
    unfold on_account_manager_ready
    obtain ⟨hu2, hb2, -, hall, -⟩ := unclaimed_add_all available s1 hu1
    generalize available.foldl (fun st account => add_account st (some account)) s1 = s2
      at hu2 hb2 hall
    obtain ⟨post, hcalls, hpost⟩ := register_bus_name_calls s2 acquired
    have hname : s2.bus_name_ = bus_name := by rw [hb2, hb1, hb]
    rw [hname] at hcalls
    refine ⟨s2.calls, post, hcalls, hu2.unclaimed, ?_, ?_, ?_⟩
    · intro name
      rcases hpost with h | h <;> simp [h]
    · intro id hid
      simp only [initial_ids, if_neg hs, List.mem_map] at hid
      obtain ⟨a, ha, rfl⟩ := hid
      exact hall a ha
    · intro path
      rcases hpost with h | h <;> simp [h]

/-- C7 (instance): service `svc`; account 42 becomes available before `ready`,
which reports accounts 42 and 7; the bus name `com.example.provider` is
claimed after `/provider/42` and `/provider/7` are registered. -/
theorem bus_name_claimed_after_objects_witness :
    (∀ e ∈ [Event.accountAvailable sampleAccount], e.isAccountEvent = true) ∧
    ClaimedAfterObjects
      ((init "com.example.provider" "svc" none true).run
        ([Event.accountAvailable sampleAccount] ++
          [Event.ready [sampleAccount, passwordAccount] true])).calls
      "com.example.provider" (initial_ids "svc" [sampleAccount, passwordAccount]) :=
  ⟨by decide,
   bus_name_claimed_after_objects "com.example.provider" "svc" none true
     [Event.accountAvailable sampleAccount] [sampleAccount, passwordAccount] true (by decide)⟩

/-- C8: with an empty service id, `init` creates exactly one provider and one
account entry, keyed by account id 0 and built on no online account (the fixed
account), calls `registerObject` for `/provider/0` and for no other path,
creates no accounts manager, and calls `registerService(bus_name)` after
that; the only call that follows is `exit(1)`, made exactly when the name is
refused, with or without an injected bus connection. -/
theorem init_empty_service_id (bus_name : String) (bus : Option QDBusConnection)
    (acquired : Bool) :
    (init bus_name "" bus acquired).interfaces_ = [(0, { account := none, provider := 0 })] ∧
    (init bus_name "" bus acquired).registered_paths = ["/provider/0"] ∧
    "/provider/0" ∈ (init bus_name "" bus acquired).bus_.objects ∧
    (init bus_name "" bus acquired).providers_made = 1 ∧
    (init bus_name "" bus acquired).manager_ = false ∧
    (init bus_name "" bus acquired).calls =
      [Call.make_provider, Call.registerObject "/provider/0", Call.accountAdded,
        Call.registerService bus_name] ++
        (if acquired = false then [Call.exit 1] else []) := by
  obtain ⟨hm, -, hi, hc⟩ := init_fixed bus_name bus acquired
  refine ⟨hi, ?_, ?_, ?_, hm, hc⟩
  · rw [registered_paths, hc]
    split <;> simp [List.filterMap]
  · have hp : object_path 0 = "/provider/0" := by decide
    have he : "".isEmpty = true := by decide
    cases acquired <;> cases bus <;>
      simp [init, he, add_account, register_bus_name, hp, QDBusConnection.registerObject]
    all_goals split <;> simp_all
  · rw [providers_made, hc]
    split <;> simp [List.count_cons]

/-- C9: for an account whose id is not in the interface map and whose
service id is the configured one, the account-available slot registers
`/provider/<id>`, adds the id to the map, connects the account's `disabled`
signal and emits `accountAdded` exactly once; the account-disabled slot that
follows unregisters `/provider/<id>`, removes the id, emits `accountRemoved`
exactly once, and leaves the map equal to the map before the add. -/
theorem account_add_remove_round_trip (s : ServerImpl) (a : Account)
    (hnew : s.interfaces_.find a.id = none) (hsvc : a.serviceId = s.service_id_) :
    object_path a.id ∈ (s.on_account_available a).bus_.objects ∧
    (s.on_account_available a).interfaces_.find a.id =
      some { account := some a, provider := s.providers_made } ∧
    (s.on_account_available a).calls =
      s.calls ++ [Call.make_provider, Call.registerObject (object_path a.id),
        Call.accountAdded] ∧
    (s.on_account_available a).accountAdded_count = s.accountAdded_count + 1 ∧
    a ∈ (s.on_account_available a).disabled_connected ∧
    object_path a.id ∉ ((s.on_account_available a).on_account_disabled a).bus_.objects ∧
    ((s.on_account_available a).on_account_disabled a).interfaces_.find a.id = none ∧
    ((s.on_account_available a).on_account_disabled a).calls =
      (s.on_account_available a).calls ++
        [Call.unregisterObject (object_path a.id), Call.accountRemoved] ∧
    ((s.on_account_available a).on_account_disabled a).accountRemoved_count =
      s.accountRemoved_count + 1 ∧
    ((s.on_account_available a).on_account_disabled a).accountAdded_count =
      s.accountAdded_count + 1 ∧
    ((s.on_account_available a).on_account_disabled a).interfaces_ = s.interfaces_ := by
  have hadd : s.on_account_available a = s.add_account (some a) := by
    simp [on_account_available, hsvc]
  rw [hadd, add_account_new s a hnew]
  have hfound := InterfaceMap.find_emplace_self s.interfaces_ a.id
    { account := some a, provider := s.providers_made } hnew
  have hknown : ((s.interfaces_.emplace a.id
      { account := some a, provider := s.providers_made }).find a.id).isSome = true := by
    rw [hfound]
    rfl
  unfold on_account_disabled
  rw [remove_account_known _ a hknown]
  have herase := InterfaceMap.erase_emplace s.interfaces_ a.id
    { account := some a, provider := s.providers_made } hnew
  refine ⟨?_, hfound, rfl, ?_, ?_, ?_, ?_, ?_, ?_, ?_, herase⟩
  · simp only [QDBusConnection.registerObject]
    split
    · assumption
    · simp
  · simp [accountAdded_count, List.count_append, List.count_cons]
  · simp
  · simp [QDBusConnection.unregisterObject]
  · simp only [herase]
    exact hnew
  · simp
  · simp [accountRemoved_count, List.count_append, List.count_cons]
  · simp [accountAdded_count, List.count_append, List.count_cons]

/-- C9 (instance): account 42 of service `svc` on a freshly initialised server
for `svc`: `/provider/42` appears and vanishes, and the map is empty again. -/
theorem account_add_remove_round_trip_witness :
    (init "com.example.provider" "svc" none true).interfaces_.find sampleAccount.id = none ∧
    sampleAccount.serviceId = (init "com.example.provider" "svc" none true).service_id_ ∧
    "/provider/42" ∈
      ((init "com.example.provider" "svc" none true).on_account_available
        sampleAccount).bus_.objects ∧
    "/provider/42" ∉
      (((init "com.example.provider" "svc" none true).on_account_available
        sampleAccount).on_account_disabled sampleAccount).bus_.objects ∧
    (((init "com.example.provider" "svc" none true).on_account_available
        sampleAccount).on_account_disabled sampleAccount).interfaces_ = [] :=
  have h := account_add_remove_round_trip (init "com.example.provider" "svc" none true)
    sampleAccount (by decide) (by decide)
  ⟨by decide, by decide, h.1, h.2.2.2.2.2.1, h.2.2.2.2.2.2.2.2.2.2⟩

/-- C10: an account-available signal for an account whose service id differs
from the configured one leaves the server exactly as it was: no object is
registered, the interface map is unchanged and no `accountAdded` is emitted. -/
theorem on_account_available_other_service (s : ServerImpl) (a : Account)
    (h : a.serviceId ≠ s.service_id_) :
    s.on_account_available a = s ∧ s.step (Event.accountAvailable a) = s := by
  have h1 : s.on_account_available a = s := by
    simp [on_account_available, h]
  refine ⟨h1, ?_⟩
  simp only [step, h1]
  split <;> rfl

/-- C10 (instance): a server for `svc` ignores an available account of
service `other`. -/
theorem on_account_available_other_service_witness :
    otherServiceAccount.serviceId ≠ (init "com.example.provider" "svc" none true).service_id_ ∧
    (init "com.example.provider" "svc" none true).on_account_available otherServiceAccount =
      init "com.example.provider" "svc" none true :=
  ⟨by decide,
   (on_account_available_other_service (init "com.example.provider" "svc" none true)
     otherServiceAccount (by decide)).1⟩

end ServerImpl

end unity.storage.provider.internal

namespace unity.storage.provider.internal

open OnlineAccounts

namespace ServerImpl

/-! ## Idle shutdown -/

theorem add_account_app (s : ServerImpl) (account : Option Account) :
    (s.add_account account).app_ = s.app_ := by
  cases account with
  | none =>
    simp only [add_account]
    split <;> rfl
  | some a =>
    simp only [add_account]
    split <;> rfl

theorem remove_account_app (s : ServerImpl) (a : Account) :
    (s.remove_account a).app_ = s.app_ := by
  unfold remove_account
  split <;> rfl

theorem register_bus_name_app (s : ServerImpl) (acquired : Bool) :
    (s.register_bus_name acquired).app_ = s.app_ := by
  cases acquired <;> rfl

theorem add_all_app (available : List Account) (s : ServerImpl) :
    (available.foldl (fun st account => add_account st (some account)) s).app_ = s.app_ := by
  induction available generalizing s with
  | nil => rfl
  | cons a rest ih =>
    simp only [List.foldl_cons]
    rw [ih, add_account_app]

theorem step_app (s : ServerImpl) (e : Event) : (s.step e).app_ = s.app_ := by
  cases e with
  | accountAvailable a =>
    simp only [step, on_account_available]
    split
    · split
      · rfl
      · exact add_account_app s (some a)
    · rfl
  | disabled a =>
    simp only [step, on_account_disabled]
    split
    · exact remove_account_app s a
    · rfl
  | ready available acquired =>
    simp only [step, on_account_manager_ready]
    split
    · rw [register_bus_name_app, add_all_app]
    · rfl
  | timeout => rfl

theorem run_app (events : List Event) (s : ServerImpl) : (s.run events).app_ = s.app_ := by
  induction events generalizing s with
  | nil => rfl
  | cons e rest ih =>
    have h := ih (s.step e)
    simp only [run, List.foldl_cons] at h ⊢
    rw [h, step_app]

theorem init_app (bus_name account_service_id : String) (bus : Option QDBusConnection)
    (acquired : Bool) : (init bus_name account_service_id bus acquired).app_ = bus.isNone := by
  cases he : account_service_id.isEmpty with
  | true =>
    simp only [init, he, if_true]
    rw [register_bus_name_app, add_account_app]
  | false =>
    simp only [init, he, Bool.false_eq_true, if_false]

/-- C11: for every server initialised by `init`, with or without an injected
bus connection, and whatever signals it has handled since, the inactivity
timer's timeout is delivered to `on_timeout`, which makes exactly one more
call, `quit()`; that call asks the application event loop to end with exit
code 0.  Nothing else of the server changes. -/
theorem on_timeout_requests_quit (bus_name account_service_id : String)
    (bus : Option QDBusConnection) (acquired : Bool) (events : List Event) :
    ((init bus_name account_service_id bus acquired).run events).step Event.timeout =
      ((init bus_name account_service_id bus acquired).run events).on_timeout ∧
    ((init bus_name account_service_id bus acquired).run events).on_timeout.calls =
      ((init bus_name account_service_id bus acquired).run events).calls ++ [Call.quit] ∧
    requested_exit_code Call.quit = some 0 ∧
    ((init bus_name account_service_id bus acquired).run events).on_timeout.bus_ =
      ((init bus_name account_service_id bus acquired).run events).bus_ ∧
    ((init bus_name account_service_id bus acquired).run events).on_timeout.interfaces_ =
      ((init bus_name account_service_id bus acquired).run events).interfaces_ :=
  ⟨rfl, rfl, rfl, rfl, rfl⟩

end ServerImpl

end unity.storage.provider.internal

namespace unity.storage.qt.client.internal.remote_client

open unity.storage.internal

/-! ## Uploads, roots and runtime shutdown on the client side -/

namespace UploaderImpl

/-- C12: for every `FinishUpload` answer, `finish_upload` yields the file made
from the answer's metadata when the metadata's type is file; otherwise it
fails with a `LocalCommsException` whose message is
`Uploader::finish_upload(): impossible item type returned by server: `
followed by the number of the type; so a file is never produced from a root
or folder answer. -/
theorem finish_upload_requires_file {File : Type} (u : UploaderImpl)
    (make_file : ItemMetadata → File) (type_number : ItemType → Int) (md : ItemMetadata) :
    (md.type = ItemType.file →
      (u.finish_upload make_file type_number md).2 = Except.ok (make_file md)) ∧
    (md.type ≠ ItemType.file →
      (u.finish_upload make_file type_number md).2 =
        Except.error (StorageException.LocalCommsException
          ("Uploader::finish_upload(): impossible item type returned by server: "
            ++ toString (type_number md.type)))) ∧
    (∀ file, (u.finish_upload make_file type_number md).2 = Except.ok file →
      md.type = ItemType.file) := by
  refine ⟨?_, ?_, ?_⟩
  · intro h
    simp [finish_upload, process_reply, h]
  · intro h
    simp [finish_upload, process_reply, h]
  · intro file h
    by_contra hne
    simp [finish_upload, process_reply, hne] at h

/-- C12 (instance): a folder answer, with folders numbered 1, fails with the
message ending in `1`; a file answer yields the file. -/
theorem finish_upload_requires_file_witness :
    sampleFolderMetadata.type ≠ ItemType.file ∧
    (sampleUploader.finish_upload id sampleTypeNumber sampleFolderMetadata).2 =
      Except.error (StorageException.LocalCommsException
        "Uploader::finish_upload(): impossible item type returned by server: 1") ∧
    (sampleUploader.finish_upload id sampleTypeNumber sampleFileMetadata).2 =
      Except.ok sampleFileMetadata :=
  ⟨by decide,
   (finish_upload_requires_file sampleUploader id sampleTypeNumber sampleFolderMetadata).2.1
     (by decide),
   (finish_upload_requires_file sampleUploader id sampleTypeNumber sampleFileMetadata).1 rfl⟩

/-- C17 (the code at the failing input): the first `finish_upload` of an
uploader succeeds with the file `file_id`; the second call sends a second
`FinishUpload` request and its outcome is that of the new answer: the other
file `other_id` when the provider answers with it, and a `LocalCommsException`
when the provider answers with a folder. -/
theorem finish_upload_repeated_follows_new_answer :
    (sampleUploader.finish_upload id sampleTypeNumber sampleFileMetadata).2 =
      Except.ok sampleFileMetadata ∧
    ((sampleUploader.finish_upload id sampleTypeNumber sampleFileMetadata).1.finish_upload id
        sampleTypeNumber otherFileMetadata).2 = Except.ok otherFileMetadata ∧
    otherFileMetadata.item_id ≠ sampleFileMetadata.item_id ∧
    ((sampleUploader.finish_upload id sampleTypeNumber sampleFileMetadata).1.finish_upload id
        sampleTypeNumber sampleFolderMetadata).2 =
      Except.error (StorageException.LocalCommsException
        "Uploader::finish_upload(): impossible item type returned by server: 1") ∧
    ((sampleUploader.finish_upload id sampleTypeNumber sampleFileMetadata).1.finish_upload id
        sampleTypeNumber otherFileMetadata).1.finish_upload_requests = 2 := by
  refine ⟨rfl, rfl, by decide, rfl, rfl⟩

end UploaderImpl

namespace RootImpl

/-- C18 (the code on every root): `delete_item` never succeeds, and what it
fails with is a default-constructed `StorageException`, which is not the
`LogicException` with message `Root::delete_item(): Cannot delete root
folder`. -/
theorem delete_item_fails_with_base_exception (r : RootImpl) :
    r.delete_item = Except.error StorageException.base ∧
    r.delete_item ≠ Except.ok () ∧
    r.delete_item ≠ Except.error
      (StorageException.LogicException "Root::delete_item(): Cannot delete root folder") := by
  refine ⟨rfl, ?_, ?_⟩
  · intro h
    cases h
  · intro h
    cases h

end RootImpl

namespace RuntimeImpl

theorem shutdown_of_destroyed (s : RuntimeImpl) (h : s.destroyed_ = true) : s.shutdown = s := by
  cases s
  simp_all [shutdown]

theorem shutdown_times_succ_destroyed (s : RuntimeImpl) (n : Nat) :
    (s.shutdown_times (n + 1)).destroyed_ = true := by
  simp only [shutdown_times, shutdown]
  split <;> rfl

theorem shutdown_times_succ_eq (s : RuntimeImpl) (n : Nat) :
    s.shutdown_times (n + 1) = s.shutdown := by
  induction n with
  | zero => rfl
  | succ k ih =>
    have hd := shutdown_times_succ_destroyed s k
    show (s.shutdown_times (k + 1)).shutdown = s.shutdown
    rw [shutdown_of_destroyed _ hd, ih]

/-- C16: for a runtime that has not been shut down, any number of `shutdown`
calls, at least one, or any number of them followed by the destructor,
disconnect from the bus exactly once in total; every call after the first,
the destructor included, leaves the runtime as it is. -/
theorem shutdown_idempotent (s : RuntimeImpl) (h : s.destroyed_ = false) (n : Nat) :
    (s.shutdown_times (n + 1)).disconnect_calls = s.disconnect_calls + 1 ∧
    (s.shutdown_times n).destroy.disconnect_calls = s.disconnect_calls + 1 ∧
    (s.shutdown_times (n + 1)).shutdown = s.shutdown_times (n + 1) ∧
    (s.shutdown_times (n + 1)).destroy = s.shutdown_times (n + 1) := by
  have hfirst : s.shutdown.disconnect_calls = s.disconnect_calls + 1 := by
    simp [shutdown, h]
  have hd := shutdown_times_succ_destroyed s n
  have hidem := shutdown_of_destroyed _ hd
  refine ⟨?_, ?_, hidem, hidem⟩
  · rw [shutdown_times_succ_eq, hfirst]
  · show (s.shutdown_times (n + 1)).disconnect_calls = _
    rw [shutdown_times_succ_eq, hfirst]

/-- C16 (instance): a fresh runtime shut down three times has disconnected
once, and the destructor changes nothing more. -/
theorem shutdown_idempotent_witness :
    ({ destroyed_ := false, disconnect_calls := 0 } : RuntimeImpl).destroyed_ = false ∧
    (({ destroyed_ := false, disconnect_calls := 0 } : RuntimeImpl).shutdown_times
      (2 + 1)).disconnect_calls = 0 + 1 ∧
    (({ destroyed_ := false, disconnect_calls := 0 } : RuntimeImpl).shutdown_times
      (2 + 1)).destroy =
      ({ destroyed_ := false, disconnect_calls := 0 } : RuntimeImpl).shutdown_times (2 + 1) :=
  ⟨rfl,
   (shutdown_idempotent { destroyed_ := false, disconnect_calls := 0 } rfl 2).1,
   (shutdown_idempotent { destroyed_ := false, disconnect_calls := 0 } rfl 2).2.2.2⟩

end RuntimeImpl

end unity.storage.qt.client.internal.remote_client

namespace unity.storage.qt.internal

open unity.storage.internal

namespace AccountImpl

/-! ## Roots of an account -/

theorem roots_loop {Item : Type} (make_item : ItemMetadata → Item)
    (metadata : List ItemMetadata) (acc : List Item) :
    metadata.foldl
        (fun roots md => if md.type ≠ ItemType.root then roots else roots ++ [make_item md])
        acc =
      acc ++ (metadata.filter (fun md => md.type = ItemType.root)).map make_item := by
  induction metadata generalizing acc with
  | nil => simp
  | cons md rest ih =>
    simp only [List.foldl_cons]
    rw [ih]
    by_cases h : md.type = ItemType.root
    · simp [h, List.filter_cons]
    · simp [h, List.filter_cons]

/-- C13: for every list of metadata received in a `Roots` answer, the items
produced are the items made from exactly the received entries whose type is
root, in the order received: every produced item comes from a root entry and
every root entry has its item. -/
theorem roots_only_root_items {Item : Type} (make_item : ItemMetadata → Item)
    (metadata : List ItemMetadata) :
    roots_process_reply make_item metadata =
      (metadata.filter (fun md => md.type = ItemType.root)).map make_item ∧
    (∀ item ∈ roots_process_reply make_item metadata,
      ∃ md ∈ metadata, md.type = ItemType.root ∧ make_item md = item) ∧
    (∀ md ∈ metadata, md.type = ItemType.root →
      make_item md ∈ roots_process_reply make_item metadata) := by
  have h : roots_process_reply make_item metadata =
      (metadata.filter (fun md => md.type = ItemType.root)).map make_item := by
    unfold roots_process_reply
    rw [roots_loop]
    simp
  rw [h]
  refine ⟨rfl, ?_, ?_⟩
  · intro item hitem
    obtain ⟨md, hmd, rfl⟩ := List.mem_map.mp hitem
    have h2 := List.mem_filter.mp hmd
    exact ⟨md, h2.1, by simpa using h2.2, rfl⟩
  · intro md hmd hroot
    exact List.mem_map.mpr ⟨md, List.mem_filter.mpr ⟨hmd, by simpa using hroot⟩, rfl⟩

/-- C13 (instance): of a root, a file and the root again, the two roots are
kept, in order. -/
theorem roots_only_root_items_witness :
    roots_process_reply id [sampleRootMetadata, sampleFileMetadata, sampleRootMetadata] =
      [sampleRootMetadata, sampleRootMetadata] :=
  (roots_only_root_items id
    [sampleRootMetadata, sampleFileMetadata, sampleRootMetadata]).1.trans (by decide)

end AccountImpl

end unity.storage.qt.internal

namespace unity.storage.qt.internal

namespace AccountImpl

/-! ## Comparison of accounts -/

theorem lex_chain (x1 x2 x3 y1 y2 y3 : String) :
    (if x1 < y1 then true
      else if x1 > y1 then false
      else if x2 < y2 then true
      else if x2 > y2 then false
      else if x3 < y3 then true
      else false) = true ↔
      x1 < y1 ∨ (x1 = y1 ∧ (x2 < y2 ∨ (x2 = y2 ∧ x3 < y3))) := by
  rcases lt_trichotomy x1 y1 with h | h | h
  · rw [if_pos h]
    exact ⟨fun _ => Or.inl h, fun _ => rfl⟩
  · subst h
    rw [if_neg (lt_irrefl x1), if_neg (lt_irrefl x1)]
    rcases lt_trichotomy x2 y2 with g | g | g
    · rw [if_pos g]
      exact ⟨fun _ => Or.inr ⟨rfl, Or.inl g⟩, fun _ => rfl⟩
    · subst g
      rw [if_neg (lt_irrefl x2), if_neg (lt_irrefl x2)]
      constructor
      · intro k
        by_cases k3 : x3 < y3
        · exact Or.inr ⟨rfl, Or.inr ⟨rfl, k3⟩⟩
        · rw [if_neg k3] at k
          cases k
      · rintro (k | ⟨-, k | ⟨-, k⟩⟩)
        · exact absurd k (lt_irrefl x1)
        · exact absurd k (lt_irrefl x2)
        · rw [if_pos k]
    · rw [if_neg g.not_lt, if_pos g]
      constructor
      · intro k
        cases k
      · rintro (k | ⟨-, k | ⟨e, -⟩⟩)
        · exact absurd k (lt_irrefl x1)
        · exact absurd k g.not_lt
        · exact absurd e g.ne'
  · rw [if_neg h.not_lt, if_pos h]
    constructor
    · intro k
      cases k
    · rintro (k | ⟨e, -⟩)
      · exact absurd k h.not_lt
      · exact absurd e h.ne'

theorem operator_lt_iff (a b : AccountImpl) :
    a.operator_lt b = true ↔
      (a.is_valid_ = false ∧ b.is_valid_ = true) ∨
      (a.is_valid_ = true ∧ b.is_valid_ = true ∧ LexLess a b) := by
  obtain ⟨va, ba, pa, ia, oa, da⟩ := a
  obtain ⟨vb, bb, pb, ib, ob, db⟩ := b
  cases va <;> cases vb
  · simp [operator_lt]
  · simp [operator_lt]
  · simp [operator_lt]
  · have hchain := lex_chain ia oa da ib ob db
    simp only [operator_lt, LexLess, Bool.not_true, Bool.and_false, Bool.false_eq_true,
      if_false]
    rw [hchain]
    constructor
    · intro h
      exact Or.inr ⟨trivial, trivial, h⟩
    · rintro (⟨h, -⟩ | ⟨-, -, h⟩)
      · exact absurd h (by simp)
      · exact h

theorem operator_eq_iff (a b : AccountImpl) :
    a.operator_eq b = true ↔
      (a.is_valid_ = false ∧ b.is_valid_ = false) ∨
      (a.is_valid_ = true ∧ b.is_valid_ = true ∧ a.owner_ = b.owner_ ∧
        a.owner_id_ = b.owner_id_ ∧ a.description_ = b.description_) := by
  obtain ⟨va, ba, pa, ia, oa, da⟩ := a
  obtain ⟨vb, bb, pb, ib, ob, db⟩ := b
  cases va <;> cases vb <;> simp [operator_eq, and_assoc]

theorem lexLess_irrefl (a : AccountImpl) : ¬ LexLess a a := by
  simp [LexLess]

theorem lexLess_trans (a b c : AccountImpl) (h1 : LexLess a b) (h2 : LexLess b c) :
    LexLess a c := by
  obtain ⟨va, ba, pa, ia, oa, da⟩ := a
  obtain ⟨vb, bb, pb, ib, ob, db⟩ := b
  obtain ⟨vc, bc, pc, ic, oc, dc⟩ := c
  simp only [LexLess] at h1 h2 ⊢
  rcases h1 with h | ⟨e1, h | ⟨e2, h⟩⟩ <;> rcases h2 with g | ⟨f1, g | ⟨f2, g⟩⟩
  · exact Or.inl (lt_trans h g)
  · exact Or.inl (f1 ▸ h)
  · exact Or.inl (f1 ▸ h)
  · exact Or.inl (e1 ▸ g)
  · exact Or.inr ⟨e1.trans f1, Or.inl (lt_trans h g)⟩
  · exact Or.inr ⟨e1.trans f1, Or.inl (f2 ▸ h)⟩
  · exact Or.inl (e1 ▸ g)
  · exact Or.inr ⟨e1.trans f1, Or.inl (e2 ▸ g)⟩
  · exact Or.inr ⟨e1.trans f1, Or.inr ⟨e2.trans f2, lt_trans h g⟩⟩

theorem lexLess_trichotomy (a b : AccountImpl) :
    LexLess a b ∨
      (a.owner_ = b.owner_ ∧ a.owner_id_ = b.owner_id_ ∧ a.description_ = b.description_) ∨
      LexLess b a := by
  obtain ⟨va, ba, pa, ia, oa, da⟩ := a
  obtain ⟨vb, bb, pb, ib, ob, db⟩ := b
  simp only [LexLess]
  rcases lt_trichotomy ia ib with h | h | h
  · exact Or.inl (Or.inl h)
  · rcases lt_trichotomy oa ob with g | g | g
    · exact Or.inl (Or.inr ⟨h, Or.inl g⟩)
    · rcases lt_trichotomy da db with k | k | k
      · exact Or.inl (Or.inr ⟨h, Or.inr ⟨g, k⟩⟩)
      · exact Or.inr (Or.inl ⟨g, h, k⟩)
      · exact Or.inr (Or.inr (Or.inr ⟨h.symm, Or.inr ⟨g.symm, k⟩⟩))
    · exact Or.inr (Or.inr (Or.inr ⟨h.symm, Or.inl g⟩))
  · exact Or.inr (Or.inr (Or.inl h))

theorem lexLess_ne (a b : AccountImpl) (h : LexLess a b) :
    ¬ (a.owner_ = b.owner_ ∧ a.owner_id_ = b.owner_id_ ∧ a.description_ = b.description_) := by
  rintro ⟨e1, e2, e3⟩
  simp only [LexLess] at h
  rw [e1, e2, e3] at h
  simp at h

theorem lexLess_asymm (a b : AccountImpl) (h1 : LexLess a b) (h2 : LexLess b a) : False :=
  lexLess_irrefl a (lexLess_trans a b a h1 h2)

/-- C14: the comparison of accounts is an equality with a strict total order:
of `a < b`, `a == b`, `b < a` at least one holds and no two hold together;
`<` is irreflexive and transitive; and between valid accounts `a < b` is the
lexicographic order on owner id, then owner, then description. -/
theorem account_order_total (a b c : AccountImpl) :
    (a.operator_lt b = true ∨ a.operator_eq b = true ∨ b.operator_lt a = true) ∧
    ¬ (a.operator_lt b = true ∧ a.operator_eq b = true) ∧
    ¬ (a.operator_lt b = true ∧ b.operator_lt a = true) ∧
    ¬ (a.operator_eq b = true ∧ b.operator_lt a = true) ∧
    a.operator_lt a = false ∧
    (a.operator_lt b = true → b.operator_lt c = true → a.operator_lt c = true) ∧
    (a.is_valid_ = true → b.is_valid_ = true →
      (a.operator_lt b = true ↔
        a.owner_id_ < b.owner_id_ ∨
          (a.owner_id_ = b.owner_id_ ∧
            (a.owner_ < b.owner_ ∨
              (a.owner_ = b.owner_ ∧ a.description_ < b.description_))))) := by
  refine ⟨?_, ?_, ?_, ?_, ?_, ?_, ?_⟩
  · rw [operator_lt_iff, operator_eq_iff, operator_lt_iff]
    cases ha : a.is_valid_ <;> cases hb : b.is_valid_ <;> simp
    exact lexLess_trichotomy a b
  · rw [operator_lt_iff, operator_eq_iff]
    rintro ⟨h1 | h1, h2 | h2⟩
    · rw [h1.2] at h2
      cases h2.2
    · rw [h1.1] at h2
      cases h2.1
    · rw [h1.1] at h2
      cases h2.1
    · exact lexLess_ne a b h1.2.2 h2.2.2
  · rw [operator_lt_iff, operator_lt_iff]
    rintro ⟨h1 | h1, h2 | h2⟩
    · rw [h1.1] at h2
      cases h2.2
    · rw [h1.1] at h2
      cases h2.2.1
    · rw [h1.2.1] at h2
      cases h2.1
    · exact lexLess_asymm a b h1.2.2 h2.2.2
  · rw [operator_eq_iff, operator_lt_iff]
    rintro ⟨h1 | h1, h2 | h2⟩
    · rw [h1.1] at h2
      cases h2.2
    · rw [h1.1] at h2
      cases h2.2.1
    · rw [h1.2.1] at h2
      cases h2.1
    · exact lexLess_ne b a h2.2.2 ⟨h1.2.2.1.symm, h1.2.2.2.1.symm, h1.2.2.2.2.symm⟩
  · cases hlt : a.operator_lt a with
    | false => rfl
    | true =>
      rcases (operator_lt_iff a a).mp hlt with h | h
      · rw [h.1] at h
        cases h.2
      · exact absurd h.2.2 (lexLess_irrefl a)
  · intro h1 h2
    rw [operator_lt_iff] at h1 h2 ⊢
    rcases h1 with h1 | h1 <;> rcases h2 with h2 | h2
    · rw [h1.2] at h2
      cases h2.1
    · exact Or.inl ⟨h1.1, h2.2.1⟩
    · rw [h1.2.1] at h2
      cases h2.1
    · exact Or.inr ⟨h1.1, h2.2.1, lexLess_trans a b c h1.2.2 h2.2.2⟩
  · intro ha hb
    rw [operator_lt_iff]
    simp [ha, hb, LexLess]

/-- C14 (instance): two valid accounts whose owner ids are `1` and `2`. -/
theorem account_order_total_witness :
    accountOne.is_valid_ = true ∧ accountTwo.is_valid_ = true ∧
    accountOne.operator_lt accountTwo = true ∧ accountOne.operator_lt accountOne = false :=
  ⟨rfl, rfl,
   ((account_order_total accountOne accountTwo accountOne).2.2.2.2.2.2 rfl rfl).mpr
     (Or.inl (by
       show "1" < "2"
       rw [String.lt_iff_toList_lt]
       decide)),
   (account_order_total accountOne accountTwo accountOne).2.2.2.2.1⟩

/-- C15 (as amended): two valid accounts compare equal if and only if their
owner, owner id and description are equal; the provider bus name and the
object path take no part in the comparison. -/
theorem account_equality_fields (a b : AccountImpl) (ha : a.is_valid_ = true)
    (hb : b.is_valid_ = true) :
    a.operator_eq b = true ↔
      a.owner_ = b.owner_ ∧ a.owner_id_ = b.owner_id_ ∧ a.description_ = b.description_ := by
  rw [operator_eq_iff]
  simp [ha, hb]

/-- C15 (instance of the amended claim): the account of owner `alice` with id
`1` equals the account with the same three fields at another bus name. -/
theorem account_equality_fields_witness :
    accountOne.is_valid_ = true ∧ accountOneElsewhere.is_valid_ = true ∧
    accountOne.operator_eq accountOneElsewhere = true :=
  ⟨rfl, rfl,
   (account_equality_fields accountOne accountOneElsewhere rfl rfl).mpr ⟨rfl, rfl, rfl⟩⟩

/-- C15 (counterexample to the claim as stated): two valid accounts that
differ in bus name and in object path, and in nothing else, compare equal. -/
theorem accounts_equal_despite_bus_name :
    accountOne.is_valid_ = true ∧ accountOneElsewhere.is_valid_ = true ∧
    accountOne.bus_name_ ≠ accountOneElsewhere.bus_name_ ∧
    accountOne.object_path_ ≠ accountOneElsewhere.object_path_ ∧
    accountOne.operator_eq accountOneElsewhere = true := by
  decide

end AccountImpl

end unity.storage.qt.internal

namespace TestProvider

open unity.storage unity.storage.provider

/-! ## The reference test backend -/

theorem list_pages_root (fuel : Nat) :
    list_pages "root_id" (fuel + 2) "" =
      some [
        [{ item_id := "child1_id", parent_id := "root_id", title := "Child 1", etag := "etag",
           type := ItemType.file, metadata := [] },
         { item_id := "child2_id", parent_id := "root_id", title := "Child 2", etag := "etag",
           type := ItemType.file, metadata := [] }],
        [{ item_id := "child3_id", parent_id := "root_id", title := "Child 4", etag := "etag",
           type := ItemType.file, metadata := [] },
         { item_id := "child4_id", parent_id := "root_id", title := "Child 3", etag := "etag",
           type := ItemType.file, metadata := [] }]] := by
  simp [list_pages, list]

/-- C19: `list("root_id", "")` returns the items `child1_id`, `child2_id` and
the next token `page_token`; `list("root_id", "page_token")` returns
`child3_id`, `child4_id` and the empty next token; for every other token
`list("root_id", t)` fails with `Unknown page token`.  A client following the
next tokens from the empty one needs two requests, stops after two pages, and
has then four items whose ids are pairwise distinct. -/
theorem list_root_paged :
    (list "root_id" "").map (fun r => (r.1.map Item.item_id, r.2)) =
      Except.ok (["child1_id", "child2_id"], "page_token") ∧
    (list "root_id" "page_token").map (fun r => (r.1.map Item.item_id, r.2)) =
      Except.ok (["child3_id", "child4_id"], "") ∧
    (∀ t : String, t ≠ "" → t ≠ "page_token" →
      list "root_id" t = Except.error "Unknown page token") ∧
    list_pages "root_id" 1 "" = none ∧
    (∀ fuel : Nat, 2 ≤ fuel →
      ∃ page1 page2, list_pages "root_id" fuel "" = some [page1, page2] ∧
        (page1 ++ page2).map Item.item_id =
          ["child1_id", "child2_id", "child3_id", "child4_id"] ∧
        ((page1 ++ page2).map Item.item_id).Nodup) := by
  refine ⟨rfl, rfl, ?_, by decide, ?_⟩
  · intro t h1 h2
    simp [list, h1, h2]
  · intro fuel hfuel
    obtain ⟨k, rfl⟩ : ∃ k, fuel = k + 2 := ⟨fuel - 2, by omega⟩
    refine ⟨_, _, list_pages_root k, by decide, by decide⟩

/-- C19 (instance): the token `bogus` is refused, and two requests are enough
to list the folder. -/
theorem list_root_paged_witness :
    list "root_id" "bogus" = Except.error "Unknown page token" ∧
    ∃ page1 page2, list_pages "root_id" 2 "" = some [page1, page2] ∧
      (page1 ++ page2).map Item.item_id =
        ["child1_id", "child2_id", "child3_id", "child4_id"] ∧
      ((page1 ++ page2).map Item.item_id).Nodup :=
  ⟨list_root_paged.2.2.1 "bogus" (by decide) (by decide),
   list_root_paged.2.2.2.2 2 (Nat.le_refl 2)⟩

/-- C20: `roots` returns the single item `root_id` with empty parent id,
title `Root`, etag `etag`, type root and no metadata, so every root has type
root and an empty parent id; and whenever `list(X, token)` succeeds, every
item it returns has parent id `X`. -/
theorem root_invariance :
    roots = [{ item_id := "root_id", parent_id := "", title := "Root", etag := "etag",
               type := ItemType.root, metadata := [] }] ∧
    (∀ item ∈ roots, item.type = ItemType.root ∧ item.parent_id = "") ∧
    (∀ (X token : String) (items : List Item) (next : String),
      list X token = Except.ok (items, next) → ∀ item ∈ items, item.parent_id = X) := by
  refine ⟨rfl, ?_, ?_⟩
  · intro item hitem
    simp only [roots, List.mem_singleton] at hitem
    subst hitem
    exact ⟨rfl, rfl⟩
  · intro X token items next hlist item hitem
    unfold list at hlist
    split at hlist
    · cases hlist
    · rename_i hX
      have hX2 : X = "root_id" := by simpa using hX
      subst hX2
      split at hlist
      · cases hlist
        simp only [List.mem_cons, List.mem_singleton, List.not_mem_nil, or_false] at hitem
        rcases hitem with h | h <;> subst h <;> rfl
      · split at hlist
        · cases hlist
          simp only [List.mem_cons, List.mem_singleton, List.not_mem_nil, or_false] at hitem
          rcases hitem with h | h <;> subst h <;> rfl
        · cases hlist

/-- C20 (instance): the two items of the first page of `root_id` have parent
id `root_id`. -/
theorem root_invariance_witness :
    ∀ item ∈ [({ item_id := "child1_id", parent_id := "root_id", title := "Child 1",
                 etag := "etag", type := ItemType.file, metadata := [] } : Item),
              { item_id := "child2_id", parent_id := "root_id", title := "Child 2",
                etag := "etag", type := ItemType.file, metadata := [] }],
      item.parent_id = "root_id" :=
  root_invariance.2.2 "root_id" "" _ "page_token" rfl

end TestProvider

namespace unity.storage.provider.internal

open OnlineAccounts

namespace AccountData

/-! ## Credentials while authentication is pending -/

/-- C26: in every state reached from construction by any sequence of
`authenticate` calls and call completions, if an authentication request is
outstanding then `has_credentials()` is false and `credentials()` is blank. -/
theorem no_credentials_while_pending (account : Account) (interactive0 valid0 : Bool)
    (events : List Event)
    (hpending : ((construct account interactive0 valid0).run events).outstanding ≠ []) :
    ((construct account interactive0 valid0).run events).has_credentials = false ∧
    ((construct account interactive0 valid0).run events).credentials = Credentials.blank := by
  have hinv := watcherInv_run events _ (watcherInv_construct account interactive0 valid0)
  generalize (construct account interactive0 valid0).run events = s at hpending hinv
  cases hw : s.auth_watcher_ with
  | none => exact absurd (outstanding_of_none s hw) hpending
  | some call =>
    obtain ⟨-, -, hvalid, hcred⟩ := hinv call hw
    exact ⟨hvalid, hcred⟩

/-- C26 (instance): after a failed completion followed by a new
`authenticate(true)`, a request is outstanding and no credentials are
exposed. -/
theorem no_credentials_while_pending_witness :
    ((construct sampleAccount false false).run
      [Event.finished 0 failedReply, Event.authenticate true]).outstanding ≠ [] ∧
    ((construct sampleAccount false false).run
      [Event.finished 0 failedReply, Event.authenticate true]).has_credentials = false ∧
    ((construct sampleAccount false false).run
      [Event.finished 0 failedReply, Event.authenticate true]).credentials =
        Credentials.blank :=
  ⟨by decide,
   no_credentials_while_pending sampleAccount false false
     [Event.finished 0 failedReply, Event.authenticate true] (by decide)⟩

end AccountData

namespace ServerImpl

/-! ## Use of the application object, duplicate and unknown accounts -/

/-- C25 (as amended): `init` creates the application object exactly when no
bus connection is injected, and no signal handled afterwards changes that; so
with an injected connection `app_` is unset wherever the server uses it.  In
either case `on_timeout` makes its `quit()` call, the failure path of
`register_bus_name` its `exit(1)` call and `run` its `exec()` call: the three
are static members and take no object from `app_`. -/
theorem app_created_iff_no_injected_bus (bus_name account_service_id : String)
    (bus : Option QDBusConnection) (acquired : Bool) (events : List Event) :
    ((init bus_name account_service_id bus acquired).run events).app_ = bus.isNone ∧
    ((init bus_name account_service_id bus acquired).run events).on_timeout.calls =
      ((init bus_name account_service_id bus acquired).run events).calls ++ [Call.quit] ∧
    (((init bus_name account_service_id bus acquired).run events).register_bus_name false).calls =
      ((init bus_name account_service_id bus acquired).run events).calls ++
        [Call.registerService
          ((init bus_name account_service_id bus acquired).run events).bus_name_,
         Call.exit 1] ∧
    ((init bus_name account_service_id bus acquired).run events).run_application.calls =
      ((init bus_name account_service_id bus acquired).run events).calls ++ [Call.exec] := by
  refine ⟨?_, rfl, ?_, rfl⟩
  · rw [run_app, init_app]
  · simp [register_bus_name]

/-- C25 (counterexample to the claim as stated): a server for `svc`
initialised with an injected bus connection has no application object, and
the timeout still reaches `on_timeout`, which makes the `quit()` call. -/
theorem app_unset_with_injected_bus :
    (init "com.example.provider" "svc" (some QDBusConnection.sessionBus) true).app_ = false ∧
    ((init "com.example.provider" "svc" (some QDBusConnection.sessionBus) true).step
      Event.timeout).app_ = false ∧
    ((init "com.example.provider" "svc" (some QDBusConnection.sessionBus) true).step
      Event.timeout).calls = [Call.quit] := by
  decide

/-- C28: `add_account` for an online account whose id is already a key of the
interface map, and `remove_account` for an account whose id is not a key,
leave the server exactly as it was: no provider is made, nothing is registered
or unregistered, no signal is emitted and the map is unchanged. -/
theorem duplicate_and_unknown_accounts_ignored (s : ServerImpl) (a : Account) :
    ((s.interfaces_.find a.id).isSome = true → s.add_account (some a) = s) ∧
    (s.interfaces_.find a.id = none → s.remove_account a = s) :=
  ⟨add_account_known s a, remove_account_unknown s a⟩

/-- C28 (instance): account 42 added twice is added once, and disabling the
unknown account 7 changes nothing. -/
theorem duplicate_and_unknown_accounts_ignored_witness :
    (((init "com.example.provider" "svc" none true).add_account
      (some sampleAccount)).interfaces_.find sampleAccount.id).isSome = true ∧
    ((init "com.example.provider" "svc" none true).add_account
      (some sampleAccount)).interfaces_.find passwordAccount.id = none ∧
    ((init "com.example.provider" "svc" none true).add_account (some sampleAccount)).add_account
        (some sampleAccount) =
      (init "com.example.provider" "svc" none true).add_account (some sampleAccount) ∧
    ((init "com.example.provider" "svc" none true).add_account
        (some sampleAccount)).remove_account passwordAccount =
      (init "com.example.provider" "svc" none true).add_account (some sampleAccount) :=
  ⟨by decide, by decide,
   (duplicate_and_unknown_accounts_ignored
     ((init "com.example.provider" "svc" none true).add_account (some sampleAccount))
     sampleAccount).1 (by decide),
   (duplicate_and_unknown_accounts_ignored
     ((init "com.example.provider" "svc" none true).add_account (some sampleAccount))
     passwordAccount).2 (by decide)⟩

end ServerImpl

end unity.storage.provider.internal

namespace unity.storage.qt.internal

namespace AccountImpl

/-! ## Consistency of the comparison operators and of the hash -/

theorem operator_eq_symm (a b : AccountImpl) : a.operator_eq b = b.operator_eq a := by
  rw [Bool.eq_iff_iff, operator_eq_iff, operator_eq_iff]
  constructor
  · rintro (⟨h1, h2⟩ | ⟨h1, h2, h3, h4, h5⟩)
    · exact Or.inl ⟨h2, h1⟩
    · exact Or.inr ⟨h2, h1, h3.symm, h4.symm, h5.symm⟩
  · rintro (⟨h1, h2⟩ | ⟨h1, h2, h3, h4, h5⟩)
    · exact Or.inl ⟨h2, h1⟩
    · exact Or.inr ⟨h2, h1, h3.symm, h4.symm, h5.symm⟩

theorem operator_trichotomy (a b : AccountImpl) :
    a.operator_lt b = true ∨ a.operator_eq b = true ∨ b.operator_lt a = true := by
  rw [operator_lt_iff, operator_eq_iff, operator_lt_iff]
  cases ha : a.is_valid_ <;> cases hb : b.is_valid_ <;> simp
  exact lexLess_trichotomy a b

theorem operator_lt_not_eq (a b : AccountImpl) (h : a.operator_lt b = true) :
    a.operator_eq b = false := by
  cases he : a.operator_eq b with
  | false => rfl
  | true =>
    rcases (operator_lt_iff a b).mp h with h1 | h1 <;>
      rcases (operator_eq_iff a b).mp he with h2 | h2
    · rw [h1.2] at h2
      cases h2.2
    · rw [h1.1] at h2
      cases h2.1
    · rw [h1.1] at h2
      cases h2.1
    · exact absurd h2.2.2 (lexLess_ne a b h1.2.2)

theorem operator_lt_asymm (a b : AccountImpl) (h : a.operator_lt b = true) :
    b.operator_lt a = false := by
  cases hb : b.operator_lt a with
  | false => rfl
  | true =>
    rcases (operator_lt_iff a b).mp h with h1 | h1 <;>
      rcases (operator_lt_iff b a).mp hb with h2 | h2
    · rw [h1.1] at h2
      cases h2.2
    · rw [h1.1] at h2
      cases h2.2.1
    · rw [h1.2.1] at h2
      cases h2.1
    · exact absurd (lexLess_trans a b a h1.2.2 h2.2.2) (lexLess_irrefl a)

/-- C29: for all accounts, valid or not, `a != b` is the negation of `a == b`,
`a <= b` is `a < b` or `a == b`, `a > b` is `b < a`, and `a >= b` is `b <= a`;
two invalid accounts are equal, and an invalid account is strictly less than
every valid one. -/
theorem comparison_operators_consistent (a b : AccountImpl) :
    a.operator_ne b = !a.operator_eq b ∧
    a.operator_le b = (a.operator_lt b || a.operator_eq b) ∧
    a.operator_gt b = b.operator_lt a ∧
    a.operator_ge b = b.operator_le a ∧
    (a.is_valid_ = false → b.is_valid_ = false → a.operator_eq b = true) ∧
    (a.is_valid_ = false → b.is_valid_ = true →
      a.operator_lt b = true ∧ b.operator_lt a = false ∧ a.operator_eq b = false) := by
  refine ⟨rfl, rfl, ?_, ?_, ?_, ?_⟩
  · simp only [operator_gt, operator_le]
    cases hlt : a.operator_lt b with
    | true => simp [operator_lt_asymm a b hlt]
    | false =>
      cases heq : a.operator_eq b with
      | true =>
        have h1 : b.operator_eq a = true := by rw [← operator_eq_symm]; exact heq
        cases hb : b.operator_lt a with
        | false => rfl
        | true => rw [operator_lt_not_eq b a hb] at h1; cases h1
      | false =>
        rcases operator_trichotomy a b with h | h | h
        · rw [hlt] at h; cases h
        · rw [heq] at h; cases h
        · simp [h]
  · simp only [operator_ge, operator_le]
    cases hlt : a.operator_lt b with
    | true =>
      have h1 := operator_lt_asymm a b hlt
      have h2 := operator_lt_not_eq a b hlt
      rw [operator_eq_symm] at h2
      simp [h1, h2]
    | false =>
      rcases operator_trichotomy a b with h | h | h
      · rw [hlt] at h; cases h
      · rw [operator_eq_symm] at h
        simp [h]
      · simp [h]
  · intro ha hb
    rw [operator_eq_iff]
    exact Or.inl ⟨ha, hb⟩
  · intro ha hb
    have hlt : a.operator_lt b = true := (operator_lt_iff a b).mpr (Or.inl ⟨ha, hb⟩)
    exact ⟨hlt, operator_lt_asymm a b hlt, operator_lt_not_eq a b hlt⟩

/-- C29 (instance): the default-constructed account against a valid one. -/
theorem comparison_operators_consistent_witness :
    invalid.is_valid_ = false ∧ accountOne.is_valid_ = true ∧
    invalid.operator_lt accountOne = true ∧ accountOne.operator_lt invalid = false ∧
    invalid.operator_eq invalid = true :=
  ⟨rfl, rfl,
   ((comparison_operators_consistent invalid accountOne).2.2.2.2.2 rfl rfl).1,
   ((comparison_operators_consistent invalid accountOne).2.2.2.2.2 rfl rfl).2.1,
   (comparison_operators_consistent invalid invalid).2.2.2.2.1 rfl rfl⟩

/-- C30: whatever `qHash` and `hash_combine` compute, accounts that compare
equal have the same hash; every invalid account hashes to 0; and the hash of a
valid account is a function of owner, owner id and description alone. -/
theorem hash_consistent_with_equality (qHash : String → Nat)
    (hash_combine : Nat → Nat → Nat) (a b : AccountImpl) :
    (a.operator_eq b = true → a.hash qHash hash_combine = b.hash qHash hash_combine) ∧
    (a.is_valid_ = false → a.hash qHash hash_combine = 0) ∧
    (a.is_valid_ = true → b.is_valid_ = true → a.owner_ = b.owner_ →
      a.owner_id_ = b.owner_id_ → a.description_ = b.description_ →
      a.hash qHash hash_combine = b.hash qHash hash_combine) := by
  have hfields : a.is_valid_ = true → b.is_valid_ = true → a.owner_ = b.owner_ →
      a.owner_id_ = b.owner_id_ → a.description_ = b.description_ →
      a.hash qHash hash_combine = b.hash qHash hash_combine := by
    intro ha hb h1 h2 h3
    simp [hash, ha, hb, h1, h2, h3]
  refine ⟨?_, ?_, hfields⟩
  · intro heq
    rcases (operator_eq_iff a b).mp heq with h | h
    · simp [hash, h.1, h.2]
    · exact hfields h.1 h.2.1 h.2.2.1 h.2.2.2.1 h.2.2.2.2
  · intro ha
    simp [hash, ha]

/-- C30 (instance): the same account reached at two bus names compares equal
and hashes alike, for a sample choice of the two library functions. -/
theorem hash_consistent_with_equality_witness :
    accountOne.operator_eq accountOneElsewhere = true ∧
    accountOne.hash String.length (fun seed value => 31 * seed + value) =
      accountOneElsewhere.hash String.length (fun seed value => 31 * seed + value) :=
  ⟨by decide,
   (hash_consistent_with_equality String.length (fun seed value => 31 * seed + value)
     accountOne accountOneElsewhere).1 (by decide)⟩

end AccountImpl

end unity.storage.qt.internal

namespace TestDownloadJob

/-! ## The download job of the reference test backend -/

theorem take_taken_length {α : Type} (l : List α) (m : Nat) :
    l.take (l.take m).length = l.take m := by
  induction l generalizing m with
  | nil => simp
  | cons x xs ih =>
    cases m with
    | zero => simp
    | succ k => simp [ih]

theorem take_min_length {α : Type} (l : List α) (m : Nat) :
    l.take (min l.length m) = l.take m := by
  rcases Nat.le_total l.length m with h | h
  · rw [Nat.min_eq_left h, List.take_of_length_le h, List.take_of_length_le (Nat.le_refl _)]
  · rw [Nat.min_eq_right h]

theorem write_some_done (s : TestDownloadJob) (accept : Option Nat)
    (h : s.data_.length ≤ s.bytes_written_) :
    s.write_some accept =
      { s with
        report_complete_calls := s.report_complete_calls + 1
        timer_running := false } := by
  simp [write_some, h]

theorem write_some_failed (s : TestDownloadJob) (h : s.bytes_written_ < s.data_.length) :
    s.write_some none =
      { s with
        report_error_calls := s.report_error_calls ++ ["Write failure"]
        timer_running := false } := by
  have h2 : ¬ s.data_.length ≤ s.bytes_written_ := Nat.not_le.mpr h
  simp [write_some, write, h2]

theorem write_some_taken (s : TestDownloadJob) (k : Nat)
    (h : s.bytes_written_ < s.data_.length) :
    s.write_some (some k) =
      { s with
        bytes_written_ := s.bytes_written_ +
          (((s.data_.drop s.bytes_written_).take
            (min (s.data_.length - s.bytes_written_) 2)).take k).length
        socket := s.socket ++
          ((s.data_.drop s.bytes_written_).take
            (min (s.data_.length - s.bytes_written_) 2)).take k } := by
  have h2 : ¬ s.data_.length ≤ s.bytes_written_ := Nat.not_le.mpr h
  have h3 : ∀ n : Nat, ¬ ((n : Int) < 0) := fun n => Int.not_lt.mpr (Int.ofNat_nonneg n)
  simp only [write_some, write, ge_iff_le, h2, if_false, h3, Int.toNat_ofNat]

/-- The bytes in the socket are the first `bytes_written_` bytes of the data,
and `report_complete` is only called once all bytes are written. -/
theorem tick_keeps_prefix (s : TestDownloadJob) (accept : Option Nat)
    (hsock : s.socket = s.data_.take s.bytes_written_)
    (hle : s.bytes_written_ ≤ s.data_.length)
    (hdone : 0 < s.report_complete_calls → s.data_.length ≤ s.bytes_written_) :
    (s.tick accept).data_ = s.data_ ∧
    (s.tick accept).socket = (s.tick accept).data_.take (s.tick accept).bytes_written_ ∧
    (s.tick accept).bytes_written_ ≤ (s.tick accept).data_.length ∧
    (0 < (s.tick accept).report_complete_calls →
      (s.tick accept).data_.length ≤ (s.tick accept).bytes_written_) := by
  unfold tick
  split
  · rcases Nat.lt_or_ge s.bytes_written_ s.data_.length with h | h
    · cases accept with
      | none =>
        rw [write_some_failed s h]
        exact ⟨rfl, hsock, hle, hdone⟩
      | some k =>
        rw [write_some_taken s k h]
        simp only [List.take_take]
        refine ⟨trivial, ?_, ?_, ?_⟩
        · rw [hsock, List.take_add, take_taken_length]
        · have hlen : ((s.data_.drop s.bytes_written_).take
              (min k (min (s.data_.length - s.bytes_written_) 2))).length ≤
              s.data_.length - s.bytes_written_ := by
            rw [List.length_take, List.length_drop]
            exact Nat.min_le_right _ _
          omega
        · intro hpos
          have := hdone hpos
          omega
    · rw [write_some_done s accept h]
      exact ⟨rfl, hsock, hle, fun _ => h⟩
  · exact ⟨rfl, hsock, hle, hdone⟩

theorem ticks_keep_prefix (accepts : List (Option Nat)) (s : TestDownloadJob)
    (hsock : s.socket = s.data_.take s.bytes_written_)
    (hle : s.bytes_written_ ≤ s.data_.length)
    (hdone : 0 < s.report_complete_calls → s.data_.length ≤ s.bytes_written_) :
    (s.ticks accepts).data_ = s.data_ ∧
    (s.ticks accepts).socket = (s.ticks accepts).data_.take (s.ticks accepts).bytes_written_ ∧
    (s.ticks accepts).bytes_written_ ≤ (s.ticks accepts).data_.length ∧
    (0 < (s.ticks accepts).report_complete_calls →
      (s.ticks accepts).data_.length ≤ (s.ticks accepts).bytes_written_) := by
  induction accepts generalizing s with
  | nil => exact ⟨rfl, hsock, hle, hdone⟩
  | cons a rest ih =>
    obtain ⟨h1, h2, h3, h4⟩ := tick_keeps_prefix s a hsock hle hdone
    obtain ⟨g1, g2, g3, g4⟩ := ih (s.tick a) h2 h3 h4
    exact ⟨g1.trans h1, g2, g3, g4⟩

theorem created_job_reached (download_id data : String) (accepts : List (Option Nat)) :
    ((create download_id data).ticks accepts).data_ = data.toList ∧
    ((create download_id data).ticks accepts).socket =
      data.toList.take ((create download_id data).ticks accepts).bytes_written_ ∧
    ((create download_id data).ticks accepts).socket.length =
      ((create download_id data).ticks accepts).bytes_written_ ∧
    ((create download_id data).ticks accepts).bytes_written_ ≤ data.length ∧
    (0 < ((create download_id data).ticks accepts).report_complete_calls →
      data.length ≤ ((create download_id data).ticks accepts).bytes_written_) := by
  obtain ⟨h1, h2, h3, h4⟩ := ticks_keep_prefix accepts (create download_id data)
    (by simp [create]) (by simp [create]) (by simp [create])
  have hd : (create download_id data).data_ = data.toList := rfl
  rw [hd] at h1
  rw [h1] at h2 h3 h4
  have hlen : data.toList.length = data.length := rfl
  rw [hlen] at h3 h4
  refine ⟨h1, h2, ?_, h3, h4⟩
  rw [h2, List.length_take, hlen]
  exact Nat.min_eq_left h3

theorem progress_tick (d : List Char) (j : Nat) (s : TestDownloadJob) (accept : Option Nat)
    (hfull : fullWrite accept) (h : Progress d j s) : Progress d (j + 1) (s.tick accept) := by
  obtain ⟨k, rfl, hk⟩ := hfull
  obtain ⟨hdata, herr, hrest⟩ := h
  unfold Progress
  by_cases hj : j ≤ (d.length + 1) / 2
  · rw [if_pos hj] at hrest
    obtain ⟨hbw, hsock, hcomplete, hrun⟩ := hrest
    by_cases hj1 : j + 1 ≤ (d.length + 1) / 2
    · have hlt : 2 * j < d.length := by omega
      have hbw2 : s.bytes_written_ = 2 * j := by omega
      have hlt2 : s.bytes_written_ < s.data_.length := by rw [hdata, hbw2]; exact hlt
      rw [if_pos hj1]
      simp only [tick, hrun, if_true]
      rw [write_some_taken s k hlt2]
      simp only [hdata, hbw2, herr, hcomplete, hrun, hsock, List.take_take]
      have hmin : min k (min (d.length - 2 * j) 2) = min (d.length - 2 * j) 2 := by omega
      rw [hmin]
      have hdrop : (d.drop (2 * j)).take (min (d.length - 2 * j) 2) =
          (d.drop (2 * j)).take 2 := by
        have := take_min_length (d.drop (2 * j)) 2
        rwa [List.length_drop] at this
      rw [hdrop]
      refine ⟨trivial, trivial, ?_, ?_, trivial, trivial⟩
      · rw [List.length_take, List.length_drop]
        omega
      · rw [show 2 * (j + 1) = 2 * j + 2 by omega, List.take_add]
    · have hge : d.length ≤ 2 * j := by omega
      have hbw2 : s.bytes_written_ = d.length := by omega
      have hdone : s.data_.length ≤ s.bytes_written_ := by rw [hdata, hbw2]
      rw [if_neg hj1]
      simp only [tick, hrun, if_true]
      rw [write_some_done s (some k) hdone]
      simp only [hdata, hbw2, herr, hcomplete, hsock]
      exact ⟨trivial, trivial, trivial, List.take_of_length_le hge, trivial, trivial⟩
  · rw [if_neg hj] at hrest
    obtain ⟨hbw, hsock, hcomplete, hrun⟩ := hrest
    have hj1 : ¬ j + 1 ≤ (d.length + 1) / 2 := by omega
    rw [if_neg hj1]
    simp only [tick, hrun, Bool.false_eq_true, if_false]
    exact ⟨hdata, herr, hbw, hsock, hcomplete, trivial⟩

theorem progress_ticks (d : List Char) (accepts : List (Option Nat)) (j : Nat)
    (s : TestDownloadJob) (hfull : ∀ a ∈ accepts, fullWrite a) (h : Progress d j s) :
    Progress d (j + accepts.length) (s.ticks accepts) := by
  induction accepts generalizing s j with
  | nil => exact h
  | cons a rest ih =>
    have h1 := progress_tick d j s a (hfull a (List.mem_cons_self _ _)) h
    have h2 := ih (j + 1) (s.tick a) (fun x hx => hfull x (List.mem_cons_of_mem _ hx)) h1
    have hlen : j + (a :: rest).length = j + 1 + rest.length := by
      simp only [List.length_cons]
      omega
    rw [hlen]
    exact h2

theorem progress_create (download_id data : String) :
    Progress data.toList 0 (create download_id data) := by
  unfold Progress
  refine ⟨rfl, rfl, ?_⟩
  rw [if_pos (Nat.zero_le _)]
  simp [create]

end TestDownloadJob

namespace TestDownloadJob

/-! ## Finishing a download -/

/-- C22: for a job created with data `d`, after any sequence of timer timeouts
(whatever the socket accepts), `finish()` fails with `Not all data read` if
and only if fewer than `length d` bytes have gone into the socket, and
succeeds otherwise; the bytes in the socket are always the first
`bytes_written_` bytes of `d`.  In particular `finish()` fails for the job of
`TestProvider::download` right after its creation. -/
theorem finish_fails_iff_data_left (download_id data : String) (accepts : List (Option Nat))
    (item_id : String) :
    (((create download_id data).ticks accepts).finish = Except.error "Not all data read" ↔
      ((create download_id data).ticks accepts).socket.length < data.length) ∧
    (((create download_id data).ticks accepts).finish = Except.ok () ↔
      ¬ ((create download_id data).ticks accepts).socket.length < data.length) ∧
    ((create download_id data).ticks accepts).socket =
      data.toList.take ((create download_id data).ticks accepts).socket.length ∧
    (TestProvider.download item_id).socket = [] ∧
    (TestProvider.download item_id).finish = Except.error "Not all data read" := by
  obtain ⟨hdata, hsock, hlen, -, -⟩ := created_job_reached download_id data accepts
  have hdl : data.toList.length = data.length := rfl
  refine ⟨?_, ?_, ?_, rfl, rfl⟩
  · rw [hlen]
    unfold finish
    rw [hdata, hdl]
    split
    · simp [*]
    · simp [*]
  · rw [hlen]
    unfold finish
    rw [hdata, hdl]
    split
    · simp [*]
    · simp [*]
  · rw [hlen]
    exact hsock

/-- C23 (as amended): for a job created with data `d`, after any sequence of
timer timeouts, `finish()` fails in every state in which fewer than `length d`
bytes have gone into the socket, and in such a state `report_complete` has not
been signalled; `finish()` succeeds in every state in which all bytes are out,
in particular whenever `report_complete` has been signalled. -/
theorem finish_before_all_data_fails (download_id data : String)
    (accepts : List (Option Nat)) :
    (((create download_id data).ticks accepts).socket.length < data.length →
      ((create download_id data).ticks accepts).report_complete_calls = 0 ∧
      ((create download_id data).ticks accepts).finish =
        Except.error "Not all data read") ∧
    (¬ ((create download_id data).ticks accepts).socket.length < data.length →
      ((create download_id data).ticks accepts).finish = Except.ok ()) ∧
    (0 < ((create download_id data).ticks accepts).report_complete_calls →
      ((create download_id data).ticks accepts).finish = Except.ok ()) := by
  obtain ⟨hdata, -, hlen, -, hdone⟩ := created_job_reached download_id data accepts
  have hdl : data.toList.length = data.length := rfl
  have hfail : ((create download_id data).ticks accepts).socket.length < data.length →
      ((create download_id data).ticks accepts).finish = Except.error "Not all data read" := by
    intro h
    rw [hlen] at h
    simp [finish, hdata, hdl, h]
  have hok : ¬ ((create download_id data).ticks accepts).socket.length < data.length →
      ((create download_id data).ticks accepts).finish = Except.ok () := by
    intro h
    rw [hlen] at h
    simp [finish, hdata, hdl, h]
  refine ⟨?_, hok, ?_⟩
  · intro h
    refine ⟨?_, hfail h⟩
    rw [hlen] at h
    by_contra hne
    have := hdone (Nat.pos_of_ne_zero hne)
    omega
  · intro hpos
    apply hok
    rw [hlen]
    have := hdone hpos
    omega

/-- C23 (instance of the amended claim): the job for `Hello world` after two
timeouts that each take two bytes has four bytes out, and `finish()` fails. -/
theorem finish_before_all_data_fails_witness :
    ((create "download_id" "Hello world").ticks [some 2, some 2]).socket.length <
      "Hello world".length ∧
    ((create "download_id" "Hello world").ticks [some 2, some 2]).report_complete_calls = 0 ∧
    ((create "download_id" "Hello world").ticks [some 2, some 2]).finish =
      Except.error "Not all data read" :=
  ⟨by decide,
   (finish_before_all_data_fails "download_id" "Hello world" [some 2, some 2]).1 (by decide)⟩

/-- C23 (counterexample to the claim as stated): the job for `Hello world`
after six timeouts that each take two bytes has written all eleven bytes and
has not signalled `report_complete`, yet `finish()` succeeds. -/
theorem finish_succeeds_before_report_complete :
    ((create "download_id" "Hello world").ticks
      [some 2, some 2, some 2, some 2, some 2, some 2]).socket = "Hello world".toList ∧
    ((create "download_id" "Hello world").ticks
      [some 2, some 2, some 2, some 2, some 2, some 2]).report_complete_calls = 0 ∧
    ((create "download_id" "Hello world").ticks
      [some 2, some 2, some 2, some 2, some 2, some 2]).finish = Except.ok () :=
  ⟨by decide, by decide, rfl⟩

/-- C24: for a job created with data `d` of length `n`, after `j` timeouts at
each of which the write succeeds and takes all bytes requested: while
`j ≤ (n + 1) / 2` the socket holds the first `2 * j` bytes of `d` (each timeout
added the next two bytes, or the one byte left), nothing is reported and the
timer runs; before `(n + 1) / 2` timeouts bytes are missing and `finish()`
fails; after exactly `(n + 1) / 2` timeouts the socket holds exactly `d` and
`finish()` succeeds; after any further timeout `report_complete` has been
signalled exactly once, the timer is stopped and `finish()` succeeds. -/
theorem download_happy_path (download_id data : String) (accepts : List (Option Nat))
    (hfull : ∀ a ∈ accepts, fullWrite a) :
    (accepts.length ≤ (data.length + 1) / 2 →
      ((create download_id data).ticks accepts).socket =
        data.toList.take (2 * accepts.length) ∧
      ((create download_id data).ticks accepts).report_complete_calls = 0 ∧
      ((create download_id data).ticks accepts).timer_running = true) ∧
    (accepts.length < (data.length + 1) / 2 →
      ((create download_id data).ticks accepts).socket.length < data.length ∧
      ((create download_id data).ticks accepts).finish =
        Except.error "Not all data read") ∧
    (accepts.length = (data.length + 1) / 2 →
      ((create download_id data).ticks accepts).socket = data.toList ∧
      ((create download_id data).ticks accepts).finish = Except.ok ()) ∧
    ((data.length + 1) / 2 < accepts.length →
      ((create download_id data).ticks accepts).socket = data.toList ∧
      ((create download_id data).ticks accepts).report_complete_calls = 1 ∧
      ((create download_id data).ticks accepts).timer_running = false ∧
      ((create download_id data).ticks accepts).report_error_calls = [] ∧
      ((create download_id data).ticks accepts).finish = Except.ok ()) := by
  have hprog := progress_ticks data.toList accepts 0 (create download_id data) hfull
    (progress_create download_id data)
  rw [Nat.zero_add] at hprog
  obtain ⟨hdata, herr, hrest⟩ := hprog
  have hdl : data.toList.length = data.length := rfl
  rw [hdl] at hrest
  refine ⟨?_, ?_, ?_, ?_⟩
  · intro hj
    rw [if_pos hj] at hrest
    exact ⟨hrest.2.1, hrest.2.2.1, hrest.2.2.2⟩
  · intro hj
    rw [if_pos (Nat.le_of_lt hj)] at hrest
    obtain ⟨hbw, hsock, -, -⟩ := hrest
    have hbw2 : ((create download_id data).ticks accepts).bytes_written_ < data.length := by
      omega
    refine ⟨?_, ?_⟩
    · rw [hsock, List.length_take, hdl]
      omega
    · simp [finish, hdata, hdl, hbw2]
  · intro hj
    rw [if_pos (Nat.le_of_eq hj)] at hrest
    obtain ⟨hbw, hsock, -, -⟩ := hrest
    have hbw2 : ¬ ((create download_id data).ticks accepts).bytes_written_ < data.length := by
      omega
    refine ⟨?_, ?_⟩
    · rw [hsock]
      apply List.take_of_length_le
      rw [hdl]
      omega
    · simp [finish, hdata, hdl, hbw2]
  · intro hj
    rw [if_neg (Nat.not_le.mpr hj)] at hrest
    obtain ⟨hbw, hsock, hcomplete, hrun⟩ := hrest
    refine ⟨hsock, hcomplete, hrun, herr, ?_⟩
    simp [finish, hdata, hdl, hbw]

/-- C24 (instance): the eleven bytes of `Hello world` are out after six
timeouts, and the seventh signals `report_complete` and stops the timer. -/
theorem download_happy_path_witness :
    (∀ a ∈ [some 2, some 2, some 2, some 2, some 2, some 2, some 2], fullWrite a) ∧
    ("Hello world".length + 1) / 2 = 6 ∧
    ((create "download_id" "Hello world").ticks
      [some 2, some 2, some 2, some 2, some 2, some 2, some 2]).socket =
        "Hello world".toList ∧
    ((create "download_id" "Hello world").ticks
      [some 2, some 2, some 2, some 2, some 2, some 2, some 2]).report_complete_calls = 1 ∧
    ((create "download_id" "Hello world").ticks
      [some 2, some 2, some 2, some 2, some 2, some 2, some 2]).timer_running = false :=
  have hfull : ∀ a ∈ [some 2, some 2, some 2, some 2, some 2, some 2, some 2],
      fullWrite a := by
    intro a ha
    simp only [List.mem_cons, List.mem_singleton, List.not_mem_nil, or_false, or_self] at ha
    exact ⟨2, ha, Nat.le_refl 2⟩
  have h := (download_happy_path "download_id" "Hello world"
    [some 2, some 2, some 2, some 2, some 2, some 2, some 2] hfull).2.2.2 (by decide)
  ⟨hfull, by decide, h.1, h.2.1, h.2.2.1⟩

end TestDownloadJob

namespace TestProvider

open unity.storage unity.storage.provider

/-! ## Metadata of the items the backend returns -/

/-- C21 (as amended): for every item returned by `roots`,
`metadata(item.item_id)` succeeds and yields an item with the same item id,
type and parent id; every other item that an operation returns under an id
other than `root_id` (every item of `list`, `lookup`, `create_folder` and
`copy`) is unknown to `metadata`, which fails with `Unknown item`. -/
theorem metadata_round_trip_roots :
    (∀ item ∈ roots, ∃ found, metadata item.item_id = Except.ok found ∧
      found.item_id = item.item_id ∧ found.type = item.type ∧
      found.parent_id = item.parent_id) ∧
    (∀ item, Returned item → item.item_id ≠ "root_id" →
      metadata item.item_id = Except.error "Unknown item") ∧
    (∀ (item_id page_token : String) (items : List Item) (next : String),
      list item_id page_token = Except.ok (items, next) →
      ∀ item ∈ items, metadata item.item_id = Except.error "Unknown item") ∧
    (∀ (parent_id name : String), ∀ item ∈ lookup parent_id name,
      metadata item.item_id = Except.error "Unknown item") ∧
    (∀ (parent_id name : String),
      metadata (create_folder parent_id name).item_id = Except.error "Unknown item") ∧
    (∀ (item_id new_parent_id new_name : String),
      metadata (copy item_id new_parent_id new_name).item_id =
        Except.error "Unknown item") := by
  refine ⟨?_, ?_, ?_, ?_, ?_, ?_⟩
  · intro item hitem
    simp only [roots, List.mem_singleton] at hitem
    subst hitem
    exact ⟨_, rfl, rfl, rfl, rfl⟩
  · intro item _ hne
    simp [metadata, hne]
  · intro item_id page_token items next hlist item hitem
    unfold list at hlist
    split at hlist
    · cases hlist
    · split at hlist
      · cases hlist
        simp only [List.mem_cons, List.mem_singleton, List.not_mem_nil, or_false] at hitem
        rcases hitem with h | h <;> subst h <;> rfl
      · split at hlist
        · cases hlist
          simp only [List.mem_cons, List.mem_singleton, List.not_mem_nil, or_false] at hitem
          rcases hitem with h | h <;> subst h <;> rfl
        · cases hlist
  · intro parent_id name item hitem
    simp only [lookup, List.mem_singleton] at hitem
    subst hitem
    rfl
  · intro parent_id name
    rfl
  · intro item_id new_parent_id new_name
    rfl

/-- C21 (instance of the amended claim): the root returned by `roots`. -/
theorem metadata_round_trip_roots_witness :
    ∃ found, metadata "root_id" = Except.ok found ∧ found.item_id = "root_id" ∧
      found.type = ItemType.root ∧ found.parent_id = "" :=
  metadata_round_trip_roots.1
    { item_id := "root_id", parent_id := "", title := "Root", etag := "etag",
      type := ItemType.root, metadata := [] }
    (by decide)

/-- C21 (counterexample to the claim as stated): `child1_id` is returned by
`list("root_id", "")`, and `metadata("child1_id")` fails. -/
theorem metadata_unknown_for_listed_child :
    (∃ items next, list "root_id" "" = Except.ok (items, next) ∧
      ({ item_id := "child1_id", parent_id := "root_id", title := "Child 1", etag := "etag",
         type := ItemType.file, metadata := [] } : Item) ∈ items) ∧
    metadata "child1_id" = Except.error "Unknown item" :=
  ⟨⟨_, _, rfl, by decide⟩, rfl⟩

end TestProvider

namespace unity.storage.provider.internal

open OnlineAccounts

namespace ServerImpl

/-! ## Object paths determine the account id -/

theorem digitValue_digitChar (k : Nat) (h : k < 10) : digitValue (Nat.digitChar k) = k := by
  interval_cases k <;> decide

theorem toDigitsCore_acc (fuel n : Nat) (acc : List Char) :
    Nat.toDigitsCore 10 fuel n acc = Nat.toDigitsCore 10 fuel n [] ++ acc := by
  induction fuel generalizing n acc with
  | zero => simp [Nat.toDigitsCore]
  | succ f ih =>
    simp only [Nat.toDigitsCore]
    split
    · simp
    · rw [ih (n / 10) (Nat.digitChar (n % 10) :: acc), ih (n / 10) [Nat.digitChar (n % 10)]]
      simp

theorem decimalValue_snoc (digits : List Char) (c : Char) :
    decimalValue (digits ++ [c]) = 10 * decimalValue digits + digitValue c := by
  simp [decimalValue, List.foldl_append]

theorem decimalValue_toDigitsCore (fuel n : Nat) (h : n < fuel) :
    decimalValue (Nat.toDigitsCore 10 fuel n []) = n := by
  induction fuel generalizing n with
  | zero => omega
  | succ f ih =>
    simp only [Nat.toDigitsCore]
    split
    · rename_i h0
      have hlt : n % 10 < 10 := Nat.mod_lt _ (by decide)
      have hv := digitValue_digitChar (n % 10) hlt
      simp only [decimalValue, List.foldl_cons, List.foldl_nil, hv]
      omega
    · rename_i h0
      rw [toDigitsCore_acc, decimalValue_snoc, ih (n / 10) (by omega),
        digitValue_digitChar (n % 10) (Nat.mod_lt _ (by decide))]
      omega

theorem decimalValue_toString (n : Nat) : decimalValue (toString n).data = n := by
  have h : (toString n).data = Nat.toDigits 10 n := rfl
  rw [h]
  exact decimalValue_toDigitsCore (n + 1) n (Nat.lt_succ_self n)

theorem object_path_injective (a b : Nat) (h : object_path a = object_path b) : a = b := by
  unfold object_path at h
  have h2 : ("/provider/" ++ toString a).data = ("/provider/" ++ toString b).data := by rw [h]
  simp only [String.data_append] at h2
  have h3 := List.append_cancel_left h2
  have h4 := congrArg decimalValue h3
  rwa [decimalValue_toString, decimalValue_toString] at h4

end ServerImpl

namespace InterfaceMap

/-! ## Keys of the interface map -/

theorem find_isSome_iff (m : InterfaceMap) (key : Nat) :
    (m.find key).isSome = true ↔ key ∈ m.keys := by
  induction m with
  | nil => simp [find, keys]
  | cons kv rest ih =>
    obtain ⟨k, v⟩ := kv
    simp only [find, keys, List.map_cons, List.mem_cons]
    split
    · rename_i h
      simp [h]
    · rename_i h
      have h2 : ¬ key = k := fun e => h e.symm
      simp only [h2, false_or]
      exact ih

theorem find_none_iff (m : InterfaceMap) (key : Nat) : m.find key = none ↔ key ∉ m.keys := by
  rw [← find_isSome_iff]
  cases m.find key <;> simp

theorem keys_emplace_perm (m : InterfaceMap) (key : Nat) (value : ProviderInterface)
    (h : m.find key = none) : List.Perm (m.emplace key value).keys (key :: m.keys) := by
  induction m with
  | nil => simp [emplace, keys]
  | cons kv rest ih =>
    obtain ⟨k, v⟩ := kv
    simp only [find] at h
    split at h
    · cases h
    · rename_i hne
      simp only [emplace]
      split
      · simp [keys]
      · rw [if_neg (fun e => hne e.symm)]
        have h2 := ih h
        simp only [keys, List.map_cons] at h2 ⊢
        exact (List.Perm.cons k h2).trans (List.Perm.swap key k _)

theorem keys_erase (m : InterfaceMap) (key : Nat) : (m.erase key).keys = m.keys.erase key := by
  induction m with
  | nil => simp [erase, keys]
  | cons kv rest ih =>
    obtain ⟨k, v⟩ := kv
    simp only [erase, keys, List.map_cons, List.erase_cons]
    split
    · rename_i h
      simp [h]
    · rename_i h
      have h2 : (k == key) = false := by simpa using h
      simp only [h2, Bool.false_eq_true, if_false, List.map_cons]
      simp only [keys] at ih
      rw [ih]

theorem length_keys (m : InterfaceMap) : m.keys.length = m.length := by
  simp [keys]

end InterfaceMap

end unity.storage.provider.internal

namespace unity.storage.provider.internal

open OnlineAccounts

namespace ServerImpl

/-! ## The registry of published accounts -/

theorem registry_of_same (base : List String) (s t : ServerImpl) (hb : t.bus_ = s.bus_)
    (hi : t.interfaces_ = s.interfaces_) (ha : t.accountAdded_count = s.accountAdded_count)
    (hr : t.accountRemoved_count = s.accountRemoved_count) (h : Registry base s) :
    Registry base t := by
  constructor
  · rw [hb, hi]
    exact h.paths
  · rw [hi]
    exact h.unique
  · rw [ha, hr, hi]
    exact h.balance

theorem registry_add_account (base : List String) (s : ServerImpl) (a : Account)
    (h : Registry base s) : Registry base (s.add_account (some a)) := by
  cases hf : s.interfaces_.find a.id with
  | some v =>
    have hk : (s.interfaces_.find a.id).isSome = true := by simp [hf]
    rw [add_account_known s a hk]
    exact h
  | none =>
    rw [add_account_new s a hf]
    have hperm := InterfaceMap.keys_emplace_perm s.interfaces_ a.id
      { account := some a, provider := s.providers_made } hf
    have hnot : a.id ∉ s.interfaces_.keys := (InterfaceMap.find_none_iff _ _).mp hf
    constructor
    · intro path
      show path ∈ (s.bus_.registerObject (object_path a.id)).objects ↔
        path ∈ base ∨ ∃ id ∈ (s.interfaces_.emplace a.id
          { account := some a, provider := s.providers_made }).keys, path = object_path id
      have hobj : path ∈ (s.bus_.registerObject (object_path a.id)).objects ↔
          path = object_path a.id ∨ path ∈ s.bus_.objects := by
        unfold QDBusConnection.registerObject
        split
        · constructor
          · intro hp
            exact Or.inr hp
          · rintro (hp | hp)
            · rw [hp]
              assumption
            · exact hp
        · simp only [List.mem_append, List.mem_singleton]
          exact Or.comm
      rw [hobj, h.paths path]
      constructor
      · rintro (hp | hp | ⟨id, hid, hp⟩)
        · exact Or.inr ⟨a.id, hperm.mem_iff.mpr (List.mem_cons_self _ _), hp⟩
        · exact Or.inl hp
        · exact Or.inr ⟨id, hperm.mem_iff.mpr (List.mem_cons_of_mem _ hid), hp⟩
      · rintro (hp | ⟨id, hid, hp⟩)
        · exact Or.inr (Or.inl hp)
        · rcases List.mem_cons.mp (hperm.mem_iff.mp hid) with hid2 | hid2
          · exact Or.inl (hid2 ▸ hp)
          · exact Or.inr (Or.inr ⟨id, hid2, hp⟩)
    · show (s.interfaces_.emplace a.id
        { account := some a, provider := s.providers_made }).keys.Nodup
      rw [hperm.nodup_iff]
      exact List.nodup_cons.mpr ⟨hnot, h.unique⟩
    · have hlen : (s.interfaces_.emplace a.id
          { account := some a, provider := s.providers_made }).length = s.interfaces_.length + 1 := by
        rw [← InterfaceMap.length_keys, hperm.length_eq, List.length_cons,
          InterfaceMap.length_keys]
      have hbal := h.balance
      simp only [accountAdded_count, accountRemoved_count] at hbal ⊢
      show List.count Call.accountAdded (s.calls ++ _) =
        List.count Call.accountRemoved (s.calls ++ _) + (s.interfaces_.emplace a.id _).length
      rw [hlen]
      simp [List.count_append, List.count_cons]
      omega

theorem registry_remove_account (base : List String) (s : ServerImpl) (a : Account)
    (hfree : ∀ id, object_path id ∉ base) (h : Registry base s) :
    Registry base (s.remove_account a) := by
  cases hf : s.interfaces_.find a.id with
  | none =>
    rw [remove_account_unknown s a hf]
    exact h
  | some v =>
    have hk : (s.interfaces_.find a.id).isSome = true := by simp [hf]
    rw [remove_account_known s a hk]
    have hmem : a.id ∈ s.interfaces_.keys := (InterfaceMap.find_isSome_iff _ _).mp hk
    constructor
    · intro path
      show path ∈ (s.bus_.unregisterObject (object_path a.id)).objects ↔
        path ∈ base ∨ ∃ id ∈ (s.interfaces_.erase a.id).keys, path = object_path id
      rw [InterfaceMap.keys_erase]
      simp only [QDBusConnection.unregisterObject, List.mem_filter, decide_eq_true_eq,
        h.paths path]
      constructor
      · rintro ⟨hp | ⟨id, hid, hp⟩, hne⟩
        · exact Or.inl hp
        · refine Or.inr ⟨id, (h.unique.mem_erase_iff).mpr ⟨?_, hid⟩, hp⟩
          intro e
          exact hne (e ▸ hp)
      · rintro (hp | ⟨id, hid, hp⟩)
        · refine ⟨Or.inl hp, ?_⟩
          intro e
          exact hfree a.id (e ▸ hp)
        · obtain ⟨hne, hid2⟩ := (h.unique.mem_erase_iff).mp hid
          refine ⟨Or.inr ⟨id, hid2, hp⟩, ?_⟩
          intro e
          exact hne (object_path_injective id a.id (hp ▸ e))
    · show (s.interfaces_.erase a.id).keys.Nodup
      rw [InterfaceMap.keys_erase]
      exact h.unique.erase _
    · have hlen : (s.interfaces_.erase a.id).length + 1 = s.interfaces_.length := by
        rw [← InterfaceMap.length_keys, InterfaceMap.keys_erase,
          List.length_erase_of_mem hmem, InterfaceMap.length_keys]
        have hpos : 0 < s.interfaces_.length := by
          rw [← InterfaceMap.length_keys]
          exact List.length_pos_of_mem hmem
        omega
      have hbal := h.balance
      simp only [accountAdded_count, accountRemoved_count] at hbal ⊢
      show List.count Call.accountAdded (s.calls ++ _) =
        List.count Call.accountRemoved (s.calls ++ _) + (s.interfaces_.erase a.id).length
      simp [List.count_append, List.count_cons]
      omega

theorem registry_register_bus_name (base : List String) (s : ServerImpl) (acquired : Bool)
    (h : Registry base s) : Registry base (s.register_bus_name acquired) := by
  apply registry_of_same base s _ _ _ _ _ h
  · cases acquired <;> rfl
  · cases acquired <;> rfl
  · cases acquired <;>
      simp [register_bus_name, accountAdded_count, List.count_append, List.count_cons]
  · cases acquired <;>
      simp [register_bus_name, accountRemoved_count, List.count_append, List.count_cons]

theorem registry_on_timeout (base : List String) (s : ServerImpl) (h : Registry base s) :
    Registry base s.on_timeout := by
  refine registry_of_same base s s.on_timeout rfl rfl ?_ ?_ h
  · simp [on_timeout, accountAdded_count, List.count_append, List.count_cons]
  · simp [on_timeout, accountRemoved_count, List.count_append, List.count_cons]

theorem registry_add_all (base : List String) (available : List Account) (s : ServerImpl)
    (h : Registry base s) :
    Registry base (available.foldl (fun st account => add_account st (some account)) s) := by
  induction available generalizing s with
  | nil => exact h
  | cons a rest ih => exact ih _ (registry_add_account base s a h)

theorem registry_step (base : List String) (s : ServerImpl) (e : Event)
    (hfree : ∀ id, object_path id ∉ base) (h : Registry base s) :
    Registry base (s.step e) := by
  cases e with
  | accountAvailable a =>
    simp only [step, on_account_available]
    split
    · split
      · exact h
      · exact registry_add_account base s a h
    · exact h
  | disabled a =>
    simp only [step, on_account_disabled]
    split
    · exact registry_remove_account base s a hfree h
    · exact h
  | ready available acquired =>
    simp only [step, on_account_manager_ready]
    split
    · exact registry_register_bus_name base _ acquired (registry_add_all base available s h)
    · exact h
  | timeout => exact registry_on_timeout base s h

theorem registry_run (base : List String) (events : List Event) (s : ServerImpl)
    (hfree : ∀ id, object_path id ∉ base) (h : Registry base s) :
    Registry base (s.run events) := by
  induction events generalizing s with
  | nil => exact h
  | cons e rest ih => exact ih (s.step e) (registry_step base s e hfree h)

theorem registry_init_on (bus_name account_service_id : String)
    (bus : Option QDBusConnection) (acquired : Bool) (bus0 : QDBusConnection)
    (hbus : (match bus with
      | some b => b
      | none => QDBusConnection.sessionBus) = bus0)
    (hfree : ∀ id, object_path id ∉ bus0.objects) :
    Registry bus0.objects (init bus_name account_service_id bus acquired) := by
  cases he : account_service_id.isEmpty with
  | true =>
    simp only [init, he, if_true, hbus]
    apply registry_register_bus_name
    have hp : object_path 0 = "/provider/0" := by decide
    have h0 : "/provider/0" ∉ bus0.objects := hp ▸ hfree 0
    constructor
    · intro path
      simp only [add_account, QDBusConnection.registerObject, hp, if_neg h0,
        InterfaceMap.emplace, InterfaceMap.keys, Option.isSome_none, Bool.false_and,
        Bool.false_eq_true, if_false, List.mem_append, List.mem_singleton, List.map_cons,
        List.map_nil, exists_eq_left]
    · simp [add_account, InterfaceMap.emplace, InterfaceMap.keys]
    · simp [add_account, InterfaceMap.emplace, accountAdded_count, accountRemoved_count,
        List.count_cons]
  | false =>
    simp only [init, he, hbus, Bool.false_eq_true, if_false]
    constructor
    · intro path
      simp [InterfaceMap.keys]
    · simp [InterfaceMap.keys]
    · simp [accountAdded_count, accountRemoved_count]

theorem registry_init (bus_name account_service_id : String) (bus : Option QDBusConnection)
    (acquired : Bool) (hfree : ∀ id, object_path id ∉ initial_objects bus) :
    Registry (initial_objects bus) (init bus_name account_service_id bus acquired) := by
  cases bus with
  | none =>
    exact registry_init_on bus_name account_service_id none acquired
      QDBusConnection.sessionBus rfl hfree
  | some b =>
    exact registry_init_on bus_name account_service_id (some b) acquired b rfl hfree

/-- C27 (as amended): let `init` be given a bus connection none of whose
registered objects has a path `/provider/<id>`.  After `init` and any sequence
of signals (account available, account disabled, and also the manager's
`ready` and timeouts), the object paths registered on the bus are exactly the
paths that were registered before `init` together with the paths
`/provider/<id>` of the keys of the interface map; every key occurs once and
has its dispatcher; and the number of `accountAdded` signals is the number of
`accountRemoved` signals plus the size of the map. -/
theorem registry_invariant (bus_name account_service_id : String)
    (bus : Option QDBusConnection) (acquired : Bool) (events : List Event)
    (hfree : ∀ id : Nat, "/provider/" ++ toString id ∉ initial_objects bus) :
    (∀ path, path ∈ ((init bus_name account_service_id bus acquired).run events).bus_.objects ↔
      path ∈ initial_objects bus ∨
      ∃ id ∈ ((init bus_name account_service_id bus acquired).run events).interfaces_.keys,
        path = "/provider/" ++ toString id) ∧
    ((init bus_name account_service_id bus acquired).run events).interfaces_.keys.Nodup ∧
    (∀ id ∈ ((init bus_name account_service_id bus acquired).run events).interfaces_.keys,
      ∃ iface, ((init bus_name account_service_id bus acquired).run events).interfaces_.find id =
        some iface) ∧
    ((init bus_name account_service_id bus acquired).run events).accountAdded_count =
      ((init bus_name account_service_id bus acquired).run events).accountRemoved_count +
        ((init bus_name account_service_id bus acquired).run events).interfaces_.length := by
  have h := registry_run (initial_objects bus) events _ hfree
    (registry_init bus_name account_service_id bus acquired hfree)
  refine ⟨h.paths, h.unique, ?_, h.balance⟩
  intro id hid
  have hsome := (InterfaceMap.find_isSome_iff _ id).mpr hid
  exact Option.isSome_iff_exists.mp hsome

theorem object_path_not_host (id : Nat) :
    "/provider/" ++ toString id ∉ initial_objects (some hostConnection) := by
  intro hmem
  simp only [initial_objects, hostConnection, List.mem_singleton] at hmem
  have hdata := congrArg String.data hmem
  simp only [String.data_append, List.cons_append, List.cons.injEq] at hdata
  exact absurd hdata.2.1 (by decide)

/-- C27 (instance): service `svc` on an injected connection that carries the
host's object `/host/object`; account 42 becomes available, `ready` reports
accounts 42 and 7, then account 42 is disabled.  The registered paths are
`/host/object` and the paths of the keys. -/
theorem registry_invariant_witness :
    (∀ id : Nat, "/provider/" ++ toString id ∉ initial_objects (some hostConnection)) ∧
    (∀ path, path ∈ ((init "com.example.provider" "svc" (some hostConnection) true).run
        [Event.accountAvailable sampleAccount,
          Event.ready [sampleAccount, passwordAccount] true,
          Event.disabled sampleAccount]).bus_.objects ↔
      path ∈ initial_objects (some hostConnection) ∨
      ∃ id ∈ ((init "com.example.provider" "svc" (some hostConnection) true).run
          [Event.accountAvailable sampleAccount,
            Event.ready [sampleAccount, passwordAccount] true,
            Event.disabled sampleAccount]).interfaces_.keys,
        path = "/provider/" ++ toString id) ∧
    ((init "com.example.provider" "svc" (some hostConnection) true).run
      [Event.accountAvailable sampleAccount,
        Event.ready [sampleAccount, passwordAccount] true,
        Event.disabled sampleAccount]).accountAdded_count =
      ((init "com.example.provider" "svc" (some hostConnection) true).run
        [Event.accountAvailable sampleAccount,
          Event.ready [sampleAccount, passwordAccount] true,
          Event.disabled sampleAccount]).accountRemoved_count +
        ((init "com.example.provider" "svc" (some hostConnection) true).run
          [Event.accountAvailable sampleAccount,
            Event.ready [sampleAccount, passwordAccount] true,
            Event.disabled sampleAccount]).interfaces_.length :=
  have h := registry_invariant "com.example.provider" "svc" (some hostConnection) true
    [Event.accountAvailable sampleAccount,
      Event.ready [sampleAccount, passwordAccount] true,
      Event.disabled sampleAccount] object_path_not_host
  ⟨object_path_not_host, h.1, h.2.2.2⟩

/-- C27 (counterexample to the claim as stated): a server for `svc`
initialised on an injected connection that already carries `/host/object`
has that path registered on its bus, and the path is not `/provider/<id>` for
any key of the interface map, which is empty. -/
theorem registered_path_outside_map :
    "/host/object" ∈
      (init "com.example.provider" "svc" (some hostConnection) true).bus_.objects ∧
    (init "com.example.provider" "svc" (some hostConnection) true).interfaces_.keys = [] ∧
    ¬ ∃ id ∈ (init "com.example.provider" "svc" (some hostConnection) true).interfaces_.keys,
      "/host/object" = "/provider/" ++ toString id := by
  refine ⟨by decide, by decide, ?_⟩
  rintro ⟨id, hid, -⟩
  have hkeys : (init "com.example.provider" "svc" (some hostConnection)
      true).interfaces_.keys = [] := by decide
  rw [hkeys] at hid
  cases hid

end ServerImpl

end unity.storage.provider.internal
